import Mathlib

/-!
# landonia/keystore: the store and the dispatcher

A shallow embedding of `store.go`, `model.go`, the request handling and the
control loop of `service.go`, the facade of `sync.go`, the handler of
`transport/httpserver.go` and the decoding steps of the stream and datagram
transports, followed by the properties proved about them.

Conventions of the embedding.

* A Go `interface{}` is a `Value`: the nil interface, one of the six dynamic
  types the store distinguishes, or any other dynamic type (kept abstract).
  Values are only carried around by the program, never computed on, so a
  `float64` is its bit pattern and an `int` an integer.
* A Go `error` is an `Option String`: `none` is `nil`, `some msg` is
  `errors.New(msg)`, whose `Error()` is `msg`.
* `map[string]interface{}` is a partial function from keys to values; two
  maps are equal when they hold the same entries. The map of the store can
  also be nil: it then reads as a map with no entry, and a write to it panics.
* A Go `string` is a `String`: the embedding has the strings that are valid
  UTF-8, and no others.
* Methods with a pointer receiver that mutate the store return the new store.
* `Op` and `Type` are `uint`; they are only compared with the flags, never
  computed on, and are natural numbers here.
* The file system, `encoding/json` and `encoding/gob` are outside the
  repository. Files hold
  JSON documents rather than bytes, and what the library does that the code
  cannot decide (the encoding of foreign types, the text decoder and encoder of
  the transports) is a parameter of the definitions that call it.
* Pointers that may be nil (`Request.Value`, `Response.Value`) are options; a
  nil dereference (a run-time panic) makes the enclosing function return
  `none`.
-/

namespace Keystore

/-! ## Values, errors -/

/-- Dynamic value held by an `interface{}`. -/
inductive Value where
  /-- The nil interface: no dynamic type. -/
  | nil : Value
  /-- Dynamic type `bool`. -/
  | bool (b : Bool) : Value
  /-- Dynamic type `int`. -/
  | int (i : Int) : Value
  /-- Dynamic type `float64`, as its IEEE-754 bit pattern. -/
  | float (bits : Nat) : Value
  /-- Dynamic type `string`. -/
  | str (s : String) : Value
  /-- Dynamic type `[]interface{}`, the nil slice. -/
  | nilArray : Value
  /-- Dynamic type `[]interface{}`, a non-nil slice. -/
  | array (xs : List Value) : Value
  /-- Dynamic type `map[string]interface{}`, the nil map. -/
  | nilMap : Value
  /-- Dynamic type `map[string]interface{}`, a non-nil map. -/
  | map (kvs : List (String × Value)) : Value
  /-- Any other dynamic type (`int64`, `float32`, a struct, ...). -/
  | other (typeName : String) (repr : String) : Value

instance : Inhabited Value := ⟨Value.nil⟩

/-- Go `error`: `none` is nil, `some msg` an error whose `Error()` is `msg`. -/
abbrev GoError := Option String

/-- Result of `generateError` (store.go). -/
def generateError (message : String) : GoError :=
  some message

/-- Result of `generateTypeError` (store.go). -/
def generateTypeError (key : String) : GoError :=
  generateError ("The value for key '" ++ key ++ "' is not of the correct type")

/-! ## Type assertions `val, ok := raw.(T)`

On failure `val` is the zero value of `T`, which the accessors then return
boxed in an `interface{}`. -/

/-- Assertion `raw.(bool)`. -/
def assertBool : Value → Value × Bool
  | Value.bool b => (Value.bool b, true)
  | _ => (Value.bool false, false)

/-- Assertion `raw.(int)`. -/
def assertInt : Value → Value × Bool
  | Value.int i => (Value.int i, true)
  | _ => (Value.int 0, false)

/-- Assertion `raw.(float64)`. -/
def assertFloat : Value → Value × Bool
  | Value.float f => (Value.float f, true)
  | _ => (Value.float 0, false)

/-- Assertion `raw.(string)`. -/
def assertString : Value → Value × Bool
  | Value.str s => (Value.str s, true)
  | _ => (Value.str "", false)

/-- Assertion `raw.([]interface{})`. -/
def assertArray : Value → Value × Bool
  | Value.array xs => (Value.array xs, true)
  | Value.nilArray => (Value.nilArray, true)
  | _ => (Value.nilArray, false)

/-- Assertion `raw.(map[string]interface{})`. -/
def assertMap : Value → Value × Bool
  | Value.map kvs => (Value.map kvs, true)
  | Value.nilMap => (Value.nilMap, true)
  | _ => (Value.nilMap, false)

/-! ## store.go -/

/-- In-memory store: `filePath` and the map `values`. The map of a Go store
can be nil (`json.Unmarshal` of `null` into it leaves it so): `table` is then
`none`. -/
structure Store where
  filePath : String
  /-- Field `values` of the source; `none` is the nil map. -/
  table : Option (String → Option Value)

/-- Read `s.values[key]`: a nil map reads as a map that holds nothing. -/
def Store.values (s : Store) (key : String) : Option Value :=
  match s.table with
  | some m => m key
  | none => none

/-- Constructor `NewStoreFromFile`: an empty map (`make`), backed by
`filePath`. -/
def NewStoreFromFile (filePath : String) : Store :=
  { filePath := filePath, table := some (fun _ => none) }

/-- Constructor `NewEmptyStore`. -/
def NewEmptyStore : Store :=
  NewStoreFromFile ""

namespace Store

/-- Method `KeyExists`: `_, exists = s.values[key]`. -/
def KeyExists (s : Store) (key : String) : Bool :=
  (s.values key).isSome

/-- Method `DeleteKey`: `delete(s.values, key)`, a no-op on a nil map. -/
def DeleteKey (s : Store) (key : String) : Store :=
  { s with table := s.table.map (fun m k => if k = key then none else m k) }

/-- Method `GetValue`: the stored value, or nil and the key error. -/
def GetValue (s : Store) (key : String) : Value × GoError :=
  match s.values key with
  | some val => (val, none)
  | none => (Value.nil, generateError ("The key '" ++ key ++ "' specified does not exist"))

/-- Shape shared by the six typed accessors: `GetValue`, then the type
assertion; `return val, err` inside, `return nil, err` when the key is absent. -/
def getAsserted (assert : Value → Value × Bool) (s : Store) (key : String) : Value × GoError :=
  match s.GetValue key with
  | (raw, none) =>
    let (val, ok) := assert raw
    if !ok then (val, generateTypeError key) else (val, none)
  | (_, some e) => (Value.nil, some e)

/-- Method `GetBool`. -/
def GetBool (s : Store) (key : String) : Value × GoError :=
  getAsserted assertBool s key

/-- Method `GetInt`. -/
def GetInt (s : Store) (key : String) : Value × GoError :=
  getAsserted assertInt s key

/-- Method `GetFloat`. -/
def GetFloat (s : Store) (key : String) : Value × GoError :=
  getAsserted assertFloat s key

/-- Method `GetString`. -/
def GetString (s : Store) (key : String) : Value × GoError :=
  getAsserted assertString s key

/-- Method `GetArray`. -/
def GetArray (s : Store) (key : String) : Value × GoError :=
  getAsserted assertArray s key

/-- Method `GetMap`. -/
def GetMap (s : Store) (key : String) : Value × GoError :=
  getAsserted assertMap s key

/-- Method `SetValue`: `s.values[key] = value; return nil`. The assignment
panics when the map is nil: `none`. -/
def SetValue (s : Store) (key : String) (value : Value) : Option (Store × GoError) :=
  match s.table with
  | none => none
  | some m => some ({ s with table := some (fun k => if k = key then some value else m k) }, none)

/-- Method `setValueOrReturnError`: the result of `SetValue` is dropped and
`err` stays nil. -/
def setValueOrReturnError (s : Store) (key : String) (val : Value) (ok : Bool) :
    Option (Store × GoError) :=
  if !ok then some (s, generateTypeError key)
  else (s.SetValue key val).map (fun r => (r.1, none))

/-- Method `SetBool`. -/
def SetBool (s : Store) (key : String) (value : Value) : Option (Store × GoError) :=
  s.setValueOrReturnError key (assertBool value).1 (assertBool value).2

/-- Method `SetInt`. -/
def SetInt (s : Store) (key : String) (value : Value) : Option (Store × GoError) :=
  s.setValueOrReturnError key (assertInt value).1 (assertInt value).2

/-- Method `SetFloat`. -/
def SetFloat (s : Store) (key : String) (value : Value) : Option (Store × GoError) :=
  s.setValueOrReturnError key (assertFloat value).1 (assertFloat value).2

/-- Method `SetString`. -/
def SetString (s : Store) (key : String) (value : Value) : Option (Store × GoError) :=
  s.setValueOrReturnError key (assertString value).1 (assertString value).2

/-- Method `SetArray`. -/
def SetArray (s : Store) (key : String) (value : Value) : Option (Store × GoError) :=
  s.setValueOrReturnError key (assertArray value).1 (assertArray value).2

/-- Method `SetMap`. -/
def SetMap (s : Store) (key : String) (value : Value) : Option (Store × GoError) :=
  s.setValueOrReturnError key (assertMap value).1 (assertMap value).2

end Store

/-! ## model.go -/

/-- Operation of a request (`type Op uint`). -/
abbrev Op := Nat

/-- Flag `READ Op = 1 << iota`, iota = 0. -/
def READ : Op := 1
/-- Flag `WRITE Op = 1 << iota`, iota = 1. -/
def WRITE : Op := 2
/-- Flag `DELETE Op = 1 << iota`, iota = 2. -/
def DELETE : Op := 4

/-- Declared data type of a value (`type Type uint`). -/
abbrev DType := Nat

/-- Flag `BOOL Type = 1 << iota`, iota = 0. -/
def BOOL : DType := 1
/-- Flag `INT`, iota = 1. -/
def INT : DType := 2
/-- Flag `FLOAT`, iota = 2. -/
def FLOAT : DType := 4
/-- Flag `STRING`, iota = 3. -/
def STRING : DType := 8
/-- Flag `ARRAY`, iota = 4. -/
def ARRAY : DType := 16
/-- Flag `MAP`, iota = 5. -/
def MAP : DType := 32
/-- Flag `NONE`, iota = 6: any type is accepted. -/
def NONE : DType := 64

/-- Struct `ValueHolder`. -/
structure ValueHolder where
  /-- Field `Type` of the source. -/
  Typ : DType
  Val : Value

/-- Struct `Request`; `Value` is a pointer and may be nil. The reply channel
is not part of the data: the reply is the result of handling the request. -/
structure Request where
  Op : Op
  Key : String
  Value : Option ValueHolder

/-- Struct `Response`; `&Response{}` is `⟨false, "", none⟩`. -/
structure Response where
  Success : Bool
  Error : String
  Value : Option ValueHolder

/-- Factory `NewReadRequest`: `Val` is left at its zero value, nil. -/
def NewReadRequest (key : String) (dType : DType) : Request :=
  { Op := READ, Key := key, Value := some { Typ := dType, Val := Value.nil } }

/-- Factory `NewWriteRequest`. -/
def NewWriteRequest (key : String) (dType : DType) (value : Value) : Request :=
  { Op := WRITE, Key := key, Value := some { Typ := dType, Val := value } }

/-- Factory `NewDeleteRequest`. -/
def NewDeleteRequest (key : String) : Request :=
  { Op := DELETE, Key := key, Value := some { Typ := NONE, Val := Value.nil } }

/-! ## service.go: handling of one request -/

/-- Tail shared by `readValue` and `writeValue`:
`if err == nil { Success = true } else { Success = false; Error = err.Error() }`. -/
def setOutcome (response : Response) (err : GoError) : Response :=
  match err with
  | none => { response with Success := true }
  | some msg => { response with Success := false, Error := msg }

/-- Method `Service.readValue`: `none` when `request.Value` is nil. -/
def readValue (store : Store) (request : Request) (response : Response) : Option Response :=
  match request.Value with
  | none => none
  | some rv =>
    let res : Value × GoError :=
      if rv.Typ = BOOL then store.GetBool request.Key
      else if rv.Typ = INT then store.GetInt request.Key
      else if rv.Typ = FLOAT then store.GetFloat request.Key
      else if rv.Typ = STRING then store.GetString request.Key
      else if rv.Typ = ARRAY then store.GetArray request.Key
      else if rv.Typ = MAP then store.GetMap request.Key
      else store.GetValue request.Key
    some (setOutcome { response with Value := some { Typ := rv.Typ, Val := res.1 } } res.2)

/-- Method `Service.writeValue`: `none` when `request.Value` is nil, and when
the store panics on a nil map. In the default case the result of `SetValue` is
dropped and `err` stays nil. -/
def writeValue (store : Store) (request : Request) (response : Response) :
    Option (Store × Response) :=
  match request.Value with
  | none => none
  | some rv =>
    let res : Option (Store × GoError) :=
      if rv.Typ = BOOL then store.SetBool request.Key rv.Val
      else if rv.Typ = INT then store.SetInt request.Key rv.Val
      else if rv.Typ = FLOAT then store.SetFloat request.Key rv.Val
      else if rv.Typ = STRING then store.SetString request.Key rv.Val
      else if rv.Typ = ARRAY then store.SetArray request.Key rv.Val
      else if rv.Typ = MAP then store.SetMap request.Key rv.Val
      else (store.SetValue request.Key rv.Val).map (fun r => (r.1, none))
    res.map (fun r => (r.1, setOutcome response r.2))

/-- Method `Service.deleteKey`. -/
def deleteKey (store : Store) (request : Request) (response : Response) : Store × Response :=
  (store.DeleteKey request.Key, { response with Success := true })

/-- Body of the `case request := <-ks.RequestChannel` branch of the control
loop in `Service.Start`: a fresh `&Response{}`, the switch on `request.Op`
(which has no default case), and the response that is then sent on the
request's reply channel. The result is the store afterwards and that response;
`none` when the handler panics. -/
def handleRequest (store : Store) (request : Request) : Option (Store × Response) :=
  let response : Response := { Success := false, Error := "", Value := none }
  if request.Op = READ then
    (readValue store request response).map (fun r => (store, r))
  else if request.Op = WRITE then
    writeValue store request response
  else if request.Op = DELETE then
    some (deleteKey store request response)
  else
    some (store, response)

/-- Control loop of `Service.Start` fed with the requests in the order they
arrive on the request channel: each is handled to completion before the next
is received. Returns the final store and the responses in order. -/
def serve (store : Store) : List Request → Option (Store × List Response)
  | [] => some (store, [])
  | request :: rest =>
    match handleRequest store request with
    | none => none
    | some (store1, response) =>
      match serve store1 rest with
      | none => none
      | some (store2, responses) => some (store2, response :: responses)

/-! ## Vocabulary of the specification -/

/-- The six concrete types of the typed accessors. -/
inductive Kind where
  | bool | int | float | string | array | map
  deriving DecidableEq, Repr

/-- Flag of `model.go` that declares a concrete type. -/
def Kind.tag : Kind → DType
  | Kind.bool => BOOL
  | Kind.int => INT
  | Kind.float => FLOAT
  | Kind.string => STRING
  | Kind.array => ARRAY
  | Kind.map => MAP

/-- Runtime type of a value, when it is one of the six; `none` for the nil
interface and for every other dynamic type. -/
def Value.kind : Value → Option Kind
  | Value.bool _ => some Kind.bool
  | Value.int _ => some Kind.int
  | Value.float _ => some Kind.float
  | Value.str _ => some Kind.string
  | Value.nilArray => some Kind.array
  | Value.array _ => some Kind.array
  | Value.nilMap => some Kind.map
  | Value.map _ => some Kind.map
  | Value.nil => none
  | Value.other _ _ => none

/-- Typed accessor `Get<T>` of the store, by kind. -/
def Store.getKind (T : Kind) (s : Store) (key : String) : Value × GoError :=
  match T with
  | Kind.bool => s.GetBool key
  | Kind.int => s.GetInt key
  | Kind.float => s.GetFloat key
  | Kind.string => s.GetString key
  | Kind.array => s.GetArray key
  | Kind.map => s.GetMap key

/-- Typed setter `Set<T>` of the store, by kind. -/
def Store.setKind (T : Kind) (s : Store) (key : String) (value : Value) :
    Option (Store × GoError) :=
  match T with
  | Kind.bool => s.SetBool key value
  | Kind.int => s.SetInt key value
  | Kind.float => s.SetFloat key value
  | Kind.string => s.SetString key value
  | Kind.array => s.SetArray key value
  | Kind.map => s.SetMap key value

/-- The map of the store is nil. -/
def Store.mapIsNil (s : Store) : Bool :=
  s.table.isNone

/-- The store with `value` at `key`, its other entries and its path as in `s`:
what a write leaves behind. -/
def Store.holding (s : Store) (key : String) (value : Value) : Store :=
  { s with table := some (fun k => if k = key then some value else s.values k) }

/-- Error message of `GetValue` for an absent key. -/
def keyNotFoundMessage (key : String) : String :=
  "The key '" ++ key ++ "' specified does not exist"

/-- Error message of `generateTypeError`. -/
def typeMismatchMessage (key : String) : String :=
  "The value for key '" ++ key ++ "' is not of the correct type"

/-- A declared type that is one of the six concrete flags. -/
def isConcrete (t : DType) : Prop :=
  t = BOOL ∨ t = INT ∨ t = FLOAT ∨ t = STRING ∨ t = ARRAY ∨ t = MAP

instance (t : DType) : Decidable (isConcrete t) := by
  unfold isConcrete
  infer_instance

/-- Zero value of each concrete type, boxed: what a failed type assertion
leaves in `val`. -/
def Kind.zeroValue : Kind → Value
  | Kind.bool => Value.bool false
  | Kind.int => Value.int 0
  | Kind.float => Value.float 0
  | Kind.string => Value.str ""
  | Kind.array => Value.nilArray
  | Kind.map => Value.nilMap

/-- Concrete type declared by a flag, if any: `none` for `NONE` and for every
value that is not one of the six flags. -/
def Kind.ofTag? (t : DType) : Option Kind :=
  if t = BOOL then some Kind.bool
  else if t = INT then some Kind.int
  else if t = FLOAT then some Kind.float
  else if t = STRING then some Kind.string
  else if t = ARRAY then some Kind.array
  else if t = MAP then some Kind.map
  else none

/-- The store accepts a write of `v` declared with type `t`: the declared type
is not concrete (no check is made), or it is the runtime type of `v`. -/
def accepts (t : DType) (v : Value) : Bool :=
  match Kind.ofTag? t with
  | none => true
  | some T => decide (v.kind = some T)

/-- Accessor that a READ with declared type `t` is answered from: the typed
one for a concrete flag, `GetValue` otherwise. -/
def Store.getDeclared (t : DType) (s : Store) (key : String) : Value × GoError :=
  match Kind.ofTag? t with
  | some T => s.getKind T key
  | none => s.GetValue key

/-- WRITE requests on one key, from their declared types and payloads. -/
def writesOn (k : String) (ws : List (DType × Value)) : List Request :=
  ws.map (fun w => NewWriteRequest k w.1 w.2)

/-- Payload of the last write of the sequence that the store accepts. -/
def lastAccepted : List (DType × Value) → Option Value
  | [] => none
  | w :: rest =>
    match lastAccepted rest with
    | some v => some v
    | none => if accepts w.1 w.2 then some w.2 else none

/-! ## sync.go: the synchronous facade

A `Sync` holds the request channel only. What matters to a caller is what is
at the other end of that channel: something that takes a request and answers
it on the request's reply channel. The exchange
`requestChannel <- request; response := <-request.ResponseChannel` is a
function of the state of that peer; `none` means that no response arrives. -/

/-- Struct `Sync`, with the reader of `RequestChannel` as a state-passing
function. -/
structure Sync (σ : Type) where
  RequestChannel : σ → Request → Option (σ × Response)

/-- Function `waitForReadValue`: the state of the peer afterwards and the
returned `(interface{}, error)`. `none` when no response arrives, and when the
response has an empty Error and a nil Value (`response.Value.Val` then
dereferences nil). -/
def waitForReadValue {σ : Type} (sync : Sync σ) (st : σ) (request : Request) :
    Option (σ × Value × GoError) :=
  match sync.RequestChannel st request with
  | none => none
  | some (st1, response) =>
    if response.Error ≠ "" then some (st1, Value.nil, some response.Error)
    else
      match response.Value with
      | none => none
      | some holder => some (st1, holder.Val, none)

/-- Function `waitForWriteValue`. -/
def waitForWriteValue {σ : Type} (sync : Sync σ) (st : σ) (request : Request) :
    Option (σ × GoError) :=
  match sync.RequestChannel st request with
  | none => none
  | some (st1, response) =>
    if response.Error ≠ "" then some (st1, some response.Error) else some (st1, none)

/-- The two calls of `encoding/json` that the facade makes, left abstract:
`Marshal(value)` gives the text or fails, `Unmarshal(text, v)` gives the new
contents of the target `v` and the error. -/
structure JSONCodec where
  Marshal : Value → Option String
  Unmarshal : String → Value → Value × GoError

namespace Sync

variable {σ : Type}

/-- Method `Sync.GetBool`. -/
def GetBool (sync : Sync σ) (st : σ) (key : String) : Option (σ × Value × GoError) :=
  waitForReadValue sync st (NewReadRequest key BOOL)

/-- Method `Sync.GetInt`. -/
def GetInt (sync : Sync σ) (st : σ) (key : String) : Option (σ × Value × GoError) :=
  waitForReadValue sync st (NewReadRequest key INT)

/-- Method `Sync.GetFloat`. -/
def GetFloat (sync : Sync σ) (st : σ) (key : String) : Option (σ × Value × GoError) :=
  waitForReadValue sync st (NewReadRequest key FLOAT)

/-- Method `Sync.GetString`. -/
def GetString (sync : Sync σ) (st : σ) (key : String) : Option (σ × Value × GoError) :=
  waitForReadValue sync st (NewReadRequest key STRING)

/-- Method `Sync.GetArray`. -/
def GetArray (sync : Sync σ) (st : σ) (key : String) : Option (σ × Value × GoError) :=
  waitForReadValue sync st (NewReadRequest key ARRAY)

/-- Method `Sync.GetMap`. -/
def GetMap (sync : Sync σ) (st : σ) (key : String) : Option (σ × Value × GoError) :=
  waitForReadValue sync st (NewReadRequest key MAP)

/-- Method `Sync.GetValue`: `return s.GetString(key)`. -/
def GetValue (sync : Sync σ) (st : σ) (key : String) : Option (σ × Value × GoError) :=
  sync.GetString st key

/-- Method `Sync.GetValueType`, with the target `v` passed in and its new
contents returned with the error. The assertion `raw.(string)` has no `ok`
and panics on anything but a string. -/
def GetValueType (codec : JSONCodec) (sync : Sync σ) (st : σ) (key : String) (v : Value) :
    Option (σ × Value × GoError) :=
  match sync.GetString st key with
  | none => none
  | some (st1, _, some e) => some (st1, v, some e)
  | some (st1, Value.str text, none) => some (st1, codec.Unmarshal text v)
  | some (_, _, none) => none

/-- Method `Sync.SetBool`. -/
def SetBool (sync : Sync σ) (st : σ) (key : String) (value : Value) : Option (σ × GoError) :=
  waitForWriteValue sync st (NewWriteRequest key BOOL value)

/-- Method `Sync.SetInt`. -/
def SetInt (sync : Sync σ) (st : σ) (key : String) (value : Value) : Option (σ × GoError) :=
  waitForWriteValue sync st (NewWriteRequest key INT value)

/-- Method `Sync.SetFloat`. -/
def SetFloat (sync : Sync σ) (st : σ) (key : String) (value : Value) : Option (σ × GoError) :=
  waitForWriteValue sync st (NewWriteRequest key FLOAT value)

/-- Method `Sync.SetString`. -/
def SetString (sync : Sync σ) (st : σ) (key : String) (value : Value) : Option (σ × GoError) :=
  waitForWriteValue sync st (NewWriteRequest key STRING value)

/-- Method `Sync.SetArray`. -/
def SetArray (sync : Sync σ) (st : σ) (key : String) (value : Value) : Option (σ × GoError) :=
  waitForWriteValue sync st (NewWriteRequest key ARRAY value)

/-- Method `Sync.SetMap`. -/
def SetMap (sync : Sync σ) (st : σ) (key : String) (value : Value) : Option (σ × GoError) :=
  waitForWriteValue sync st (NewWriteRequest key MAP value)

/-- Method `Sync.SetValue`: `jsonb, _ := json.Marshal(value)` drops the error,
and `string(jsonb)` is then the empty string. -/
def SetValue (codec : JSONCodec) (sync : Sync σ) (st : σ) (key : String) (value : Value) :
    Option (σ × GoError) :=
  sync.SetString st key (Value.str ((codec.Marshal value).getD ""))

/-- Method `Sync.DeleteKey`: the result of `waitForWriteValue` is dropped. -/
def DeleteKey (sync : Sync σ) (st : σ) (key : String) : Option σ :=
  (waitForWriteValue sync st (NewDeleteRequest key)).map (fun res => res.1)

/-- Typed accessor `Get<T>` of the facade, by kind. -/
def getKind (T : Kind) (sync : Sync σ) (st : σ) (key : String) : Option (σ × Value × GoError) :=
  match T with
  | Kind.bool => sync.GetBool st key
  | Kind.int => sync.GetInt st key
  | Kind.float => sync.GetFloat st key
  | Kind.string => sync.GetString st key
  | Kind.array => sync.GetArray st key
  | Kind.map => sync.GetMap st key

/-- Typed setter `Set<T>` of the facade, by kind. -/
def setKind (T : Kind) (sync : Sync σ) (st : σ) (key : String) (value : Value) :
    Option (σ × GoError) :=
  match T with
  | Kind.bool => sync.SetBool st key value
  | Kind.int => sync.SetInt st key value
  | Kind.float => sync.SetFloat st key value
  | Kind.string => sync.SetString st key value
  | Kind.array => sync.SetArray st key value
  | Kind.map => sync.SetMap st key value

end Sync

/-- The two calls of `encoding/json` on booleans: `Marshal` of a `bool` gives
the literal `true` or `false`, and `Unmarshal` of one of these literals stores
that boolean in the target; other values and other texts are answered with an
error here. -/
def boolCodec : JSONCodec :=
  { Marshal := fun v =>
      match v with
      | Value.bool true => some "true"
      | Value.bool false => some "false"
      | _ => none,
    Unmarshal := fun text target =>
      if text = "true" then (Value.bool true, none)
      else if text = "false" then (Value.bool false, none)
      else (target, some "json: cannot unmarshal into Go value of type bool") }

/-- A peer that answers every request with the zero Response. It is what a
caller of `HTTPClient` has at the other end of the channel when the body of
the reply cannot be decoded: `response := &keystore.Response{}` is sent on the
reply channel also after `Decode` failed. -/
def zeroResponsePeer : Sync Unit :=
  { RequestChannel := fun st _ => some (st, { Success := false, Error := "", Value := none }) }

/-- Struct `Service`: the store it owns. Its embedded `Sync` is `Service.sync`
below; the quit channel plays no part in the handling of a request. -/
structure Service where
  store : Store

/-- Constructor `NewService`. -/
def NewService (filePath : String) : Service :=
  { store := NewStoreFromFile filePath }

/-- The `Sync` embedded in a `Service`: its request channel is the one the
control loop of `Service.Start` reads, so a call on it is answered by
`handleRequest` on the service's store. -/
def Service.sync : Sync Store :=
  { RequestChannel := handleRequest }

/-! ## encoding/json, as far as the store's file needs it

`SaveToDisk` writes `json.Marshal(s.values)` and `ReadFromDisk` reads the file
back with `json.Unmarshal(..., &s.values)`. The text of the file is kept as the
JSON document it spells. Numbers are kept as the literal `Marshal` wrote: the
decimal digits of an `int`, or the shortest decimal that identifies a
`float64` (which `Unmarshal` parses back to that same `float64`). -/

/-- JSON document. -/
inductive Json where
  | null : Json
  | bool (b : Bool) : Json
  /-- Integer number literal, as written for an `int`; of magnitude below
  2^1024 - 2^970, so that it is in the range of `float64`. -/
  | intLit (i : Int) : Json
  /-- Number literal written for the `float64` with these bits. -/
  | floatLit (bits : Nat) : Json
  | str (s : String) : Json
  | array (xs : List Json) : Json
  | object (members : List (String × Json)) : Json

/-- NaN and the infinities: the exponent field of the bit pattern is all ones.
`Marshal` refuses them. -/
def isNaNOrInf (bits : Nat) : Bool :=
  (bits / 2 ^ 52) % 2048 = 2047

/-- Position of the highest set bit, for `n < 2 ^ fuel`. -/
def floorLog2 : Nat → Nat → Nat
  | 0, _ => 0
  | fuel + 1, n => if n < 2 then 0 else floorLog2 fuel (n / 2) + 1

/-- Bits of the `float64` nearest to a natural number (ties to even): what
parsing its decimal digits gives, as long as the result is finite, that is for
numbers below 2^1024 - 2^970 (a larger literal is a range error of
`Unmarshal`; no `int` is that large). -/
def float64OfNat (n : Nat) : Nat :=
  if n = 0 then 0
  else
    let e := floorLog2 1100 n
    if e ≤ 52 then (e + 1023) * 2 ^ 52 + (n * 2 ^ (52 - e) - 2 ^ 52)
    else
      let q := n / 2 ^ (e - 52)
      let r := n % 2 ^ (e - 52)
      let half := 2 ^ (e - 53)
      let q1 := if r > half ∨ (r = half ∧ q % 2 = 1) then q + 1 else q
      (e + 1023) * 2 ^ 52 + (q1 - 2 ^ 52)

/-- Bits of the `float64` that `Unmarshal` stores for the number literal of an
`int`. -/
def float64OfInt (i : Int) : Nat :=
  if i < 0 then 2 ^ 63 + float64OfNat i.natAbs else float64OfNat i.natAbs

mutual
/-- Result of `json.Marshal` on a value, `none` when it fails. A nil slice and a
nil map are written `null`. The encoding of a value of another dynamic type
depends on that type and is the parameter `encOther`. -/
def marshalValue (encOther : String → String → Option Json) : Value → Option Json
  | Value.nil => some Json.null
  | Value.bool b => some (Json.bool b)
  | Value.int i => some (Json.intLit i)
  | Value.float bits => if isNaNOrInf bits then none else some (Json.floatLit bits)
  | Value.str s => some (Json.str s)
  | Value.nilArray => some Json.null
  | Value.array xs => (marshalList encOther xs).map Json.array
  | Value.nilMap => some Json.null
  | Value.map kvs => (marshalFields encOther kvs).map Json.object
  | Value.other typeName repr => encOther typeName repr
/-- Elements of a slice: `Marshal` fails when one of them fails. -/
def marshalList (encOther : String → String → Option Json) : List Value → Option (List Json)
  | [] => some []
  | v :: rest =>
    match marshalValue encOther v, marshalList encOther rest with
    | some j, some js => some (j :: js)
    | _, _ => none
/-- Entries of a map value: `Marshal` fails when one of them fails. -/
def marshalFields (encOther : String → String → Option Json) :
    List (String × Value) → Option (List (String × Json))
  | [] => some []
  | (k, v) :: rest =>
    match marshalValue encOther v, marshalFields encOther rest with
    | some j, some js => some ((k, j) :: js)
    | _, _ => none
end

mutual
/-- Value that `json.Unmarshal` stores in an `interface{}`: nil, bool, float64
(for every number), string, `[]interface{}` or `map[string]interface{}`. -/
def unmarshalValue : Json → Value
  | Json.null => Value.nil
  | Json.bool b => Value.bool b
  | Json.intLit i => Value.float (float64OfInt i)
  | Json.floatLit bits => Value.float bits
  | Json.str s => Value.str s
  | Json.array xs => Value.array (unmarshalList xs)
  | Json.object members => Value.map (unmarshalFields members)
/-- Elements of an array. -/
def unmarshalList : List Json → List Value
  | [] => []
  | j :: rest => unmarshalValue j :: unmarshalList rest
/-- Members of an object. -/
def unmarshalFields : List (String × Json) → List (String × Value)
  | [] => []
  | (k, j) :: rest => (k, unmarshalValue j) :: unmarshalFields rest
end

/-- Result of `json.Marshal(s.values)`: the members of the object, `none` when
a value cannot be encoded. A map in this embedding is a function, so the keys
that ranging over the Go map visits are given as `keys`; a key of the list that
the map does not hold contributes nothing. -/
def marshalMap (encOther : String → String → Option Json) (values : String → Option Value) :
    List String → Option (List (String × Json))
  | [] => some []
  | k :: rest =>
    match values k with
    | none => marshalMap encOther values rest
    | some v =>
      match marshalValue encOther v, marshalMap encOther values rest with
      | some j, some members => some ((k, j) :: members)
      | _, _ => none

/-- Text of a file: the JSON document it spells, or text that is not JSON
(the empty file included). -/
inductive FileText where
  | document (doc : Json) : FileText
  | garbage : FileText

/-- Members of a decoded object put into an existing map, in order: existing
entries stay, a member replaces the entry of its key. -/
def storeMembers : List (String × Json) → (String → Option Value) → (String → Option Value)
  | [], values => values
  | (k, j) :: rest, values =>
    storeMembers rest (fun x => if x = k then some (unmarshalValue j) else values x)

/-- Result of `json.Unmarshal(text, &s.values)`: the map afterwards (`none`
is the nil map) and the error. An object is merged into the map, which is
allocated first when it is nil; `null` sets the map to nil; any other
document, and text that is not JSON, is an error and leaves the map as it
is. -/
def unmarshalMap (text : FileText) (table : Option (String → Option Value)) :
    Option (String → Option Value) × GoError :=
  match text with
  | FileText.garbage => (table, some "invalid character looking for beginning of value")
  | FileText.document (Json.object members) =>
    (some (storeMembers members
      (match table with
        | some m => m
        | none => fun _ => none)), none)
  | FileText.document Json.null => (none, none)
  | FileText.document _ =>
    (table, some "json: cannot unmarshal into Go value of type map[string]interface \x7b\x7d")

/-- Result of `json.Marshal(s.values)`: a nil map is written `null`, a map as
the object of its entries. -/
def marshalTable (encOther : String → String → Option Json) (keys : List String)
    (table : Option (String → Option Value)) : Option Json :=
  match table with
  | none => some Json.null
  | some m => (marshalMap encOther m keys).map Json.object

/-! ## The file system -/

/-- What a path names. -/
inductive Node where
  | directory : Node
  | file (text : FileText) : Node

/-- File system: what each path names, whether `os.Create` succeeds on a path
and whether writing the data to the created file then succeeds. -/
structure Disk where
  node : String → Option Node
  creatable : String → Bool
  writable : String → Bool

/-- File operations performed, in order. -/
inductive FileOp where
  | opened (path : String) : FileOp
  | readAll (path : String) : FileOp
  | created (path : String) : FileOp
  | written (path : String) : FileOp
  deriving DecidableEq

/-- Call `os.Open`: fails when the path names nothing. -/
def Disk.openFile (d : Disk) (path : String) : Except String Node :=
  match d.node path with
  | none => Except.error ("open " ++ path ++ ": no such file or directory")
  | some n => Except.ok n

/-- Call `b.ReadFrom(f)`: fails on a directory. -/
def Node.readFrom : Node → Except String FileText
  | Node.directory => Except.error "read: is a directory"
  | Node.file text => Except.ok text

/-- Call `os.Create`: the file exists and is empty afterwards. -/
def Disk.create (d : Disk) (path : String) : Except String Disk :=
  if d.creatable path then
    Except.ok { d with node := fun p => if p = path then some (Node.file FileText.garbage) else d.node p }
  else Except.error ("open " ++ path ++ ": cannot create")

/-- Call `buffer.WriteTo(fo)` on the file just created at `path`. -/
def Disk.writeTo (d : Disk) (path : String) (text : FileText) : Except String Disk :=
  if d.writable path then
    Except.ok { d with node := fun p => if p = path then some (Node.file text) else d.node p }
  else Except.error ("write " ++ path ++ ": failed")

/-! ## store.go: load and save -/

/-- Method `Store.ReadFromDisk`: the store afterwards, the returned error and
the file operations performed. The named result `err` is nil on entry. Inside
the `if`, `f, err := os.Open(...)` declares a second `err`, local to that
block; the errors of `Open`, `ReadFrom` and `Unmarshal` are assigned to that
one, and the final `return` returns the named result. -/
def Store.ReadFromDisk (s : Store) (d : Disk) : Store × GoError × List FileOp :=
  let err : GoError := none
  if s.filePath ≠ "" then
    match d.openFile s.filePath with
    | Except.error _ => (s, err, [FileOp.opened s.filePath])
    | Except.ok f =>
      match f.readFrom with
      | Except.error _ => (s, err, [FileOp.opened s.filePath, FileOp.readAll s.filePath])
      | Except.ok text =>
        ({ s with table := (unmarshalMap text s.table).1 }, err,
          [FileOp.opened s.filePath, FileOp.readAll s.filePath])
  else (s, err, [])

/-- Method `Store.SaveToDisk`: the file system afterwards, the returned error
and the file operations performed. As in `ReadFromDisk`, `b, err :=` and
`fo, err :=` declare block-local variables and the named result stays nil.
`buffer.Write` never fails. -/
def Store.SaveToDisk (encOther : String → String → Option Json) (keys : List String)
    (s : Store) (d : Disk) : Disk × GoError × List FileOp :=
  let err : GoError := none
  if s.filePath ≠ "" then
    match marshalTable encOther keys s.table with
    | none => (d, err, [])
    | some doc =>
      match d.create s.filePath with
      | Except.error _ => (d, err, [FileOp.created s.filePath])
      | Except.ok d1 =>
        match d1.writeTo s.filePath (FileText.document doc) with
        | Except.error _ => (d1, err, [FileOp.created s.filePath, FileOp.written s.filePath])
        | Except.ok d2 => (d2, err, [FileOp.created s.filePath, FileOp.written s.filePath])
  else (d, err, [])

mutual
/-- Values that the file gives back as they were: nil, bool, a finite
float64, a string (the strings of this embedding are sequences of Unicode
characters, that is valid UTF-8, which `Marshal` writes as they are), and
non-nil slices and maps of such values. -/
def Value.jsonStable : Value → Bool
  | Value.nil => true
  | Value.bool _ => true
  | Value.int _ => false
  | Value.float bits => !isNaNOrInf bits
  | Value.str _ => true
  | Value.nilArray => false
  | Value.array xs => Value.jsonStableList xs
  | Value.nilMap => false
  | Value.map kvs => Value.jsonStableFields kvs
  | Value.other _ _ => false
/-- All elements are stable. -/
def Value.jsonStableList : List Value → Bool
  | [] => true
  | v :: rest => v.jsonStable && Value.jsonStableList rest
/-- All entries are stable. -/
def Value.jsonStableFields : List (String × Value) → Bool
  | [] => true
  | (_, v) :: rest => v.jsonStable && Value.jsonStableFields rest
end

/-- A file system with no file in it, on which every creation and every write
succeeds. -/
def Disk.blank : Disk :=
  { node := fun _ => none, creatable := fun _ => true, writable := fun _ => true }

/-- The file system `d` with a file of the given text at `path`. -/
def Disk.withFile (d : Disk) (path : String) (text : FileText) : Disk :=
  { d with node := fun p => if p = path then some (Node.file text) else d.node p }

/-- The store of `NewStoreFromFile("store.json")` after `ReadFromDisk`, the
file holding the JSON text `null`. -/
def nullFileStore : Store :=
  ((NewStoreFromFile "store.json").ReadFromDisk
    (Disk.blank.withFile "store.json" (FileText.document Json.null))).1

/-! ## transport/httpserver.go

An exchange is the method, the URL path and the bytes of the body. The JSON
decoder and encoder of `encoding/json` are parameters: `decode` is
`json.NewDecoder(reader).Decode(&content)` as a function of the bytes the
reader delivers (`none` when it returns an error), `encode` is
`json.Marshal(response)`. -/

/-- Constant `MaxRequestLength`. -/
def MaxRequestLength : Nat := 1024

/-- The parts of `*http.Request` that the handler reads. -/
structure HttpRequest where
  Method : String
  /-- Field `URL.Path`. -/
  Path : String
  Body : List UInt8

/-- What the handler writes to the `http.ResponseWriter`. -/
structure HttpReply where
  Status : Nat
  /-- Header `Content-Type`, empty when the handler does not set it. -/
  ContentType : String
  Body : String

/-- Reader `io.LimitReader(r, n)`: delivers the first `n` bytes and then the
end of the stream. -/
def limitReader (body : List UInt8) (n : Nat) : List UInt8 :=
  body.take n

/-- Expression `r.URL.Path[1:]` on a path that is not empty: the path without
its first character (a one-byte character, `/`, on every path the server
hands over). -/
def pathKey (path : String) : String :=
  String.mk (path.data.drop 1)

/-- How far `operationHandler` gets before waiting for the dispatcher: it has
answered and returned, or it has sent a value on the request channel, which is
a nil `*Request` when no branch assigned `request`. -/
inductive Routed where
  | replied (reply : HttpReply) : Routed
  | sent (request : Option Request) : Routed

/-- First part of `operationHandler`, up to `requestChannel <- request`.
`none`: slicing an empty path panics. -/
def routeRequest (decode : List UInt8 → Option Value) (r : HttpRequest) : Option Routed :=
  if r.Path = "" then none
  else if pathKey r.Path = "" then
    some (Routed.replied { Status := 404, ContentType := "", Body := "" })
  else if r.Method = "POST" then
    match decode (limitReader r.Body MaxRequestLength) with
    | none =>
      some (Routed.replied
        { Status := 400, ContentType := "application/json; charset=UTF-8", Body := "" })
    | some content => some (Routed.sent (some (NewWriteRequest (pathKey r.Path) NONE content)))
  else if r.Method = "GET" then
    some (Routed.sent (some (NewReadRequest (pathKey r.Path) NONE)))
  else if r.Method = "DELETE" then
    some (Routed.sent (some (NewDeleteRequest (pathKey r.Path))))
  else
    some (Routed.sent none)

/-- Second part of `operationHandler`, the `select`: a response received on the
reply channel is encoded and written with status 200 (500 and the error text
when `json.Marshal` fails); `none` is the timer firing first, answered 408. -/
def finishExchange (encode : Response → Except String String) (answer : Option Response) :
    HttpReply :=
  match answer with
  | some response =>
    match encode response with
    | Except.error msg =>
      { Status := 500, ContentType := "text/plain; charset=utf-8", Body := msg ++ "\n" }
    | Except.ok content =>
      { Status := 200, ContentType := "application/json; charset=UTF-8", Body := content }
  | none => { Status := 408, ContentType := "", Body := "" }

/-- Function `operationHandler` with the dispatcher of a running service at the
other end of the request channel: the store afterwards and the reply written.
`none` when the handler panics: on an empty path, and on a nil request, whose
`ResponseChannel` the handler reads (the dispatcher's `request.Op` panics on it
as well). -/
def operationHandler (decode : List UInt8 → Option Value)
    (encode : Response → Except String String) (store : Store) (r : HttpRequest) :
    Option (Store × HttpReply) :=
  match routeRequest decode r with
  | none => none
  | some (Routed.replied reply) => some (store, reply)
  | some (Routed.sent none) => none
  | some (Routed.sent (some request)) =>
    match handleRequest store request with
    | none => none
    | some (store1, response) => some (store1, finishExchange encode (some response))

/-- The JSON document of `json.Marshal(response)`: an object with the members
`Success`, `Error` and `Value`, the last one `null` for a nil holder and
otherwise the object of the holder's `Type` and `Val`. `none` when `Marshal`
fails, which it does when it fails on the `Val`. -/
def marshalResponse (encOther : String → String → Option Json) (response : Response) :
    Option Json :=
  match response.Value with
  | none =>
    some (Json.object [("Success", Json.bool response.Success),
      ("Error", Json.str response.Error), ("Value", Json.null)])
  | some holder =>
    match marshalValue encOther holder.Val with
    | none => none
    | some val =>
      some (Json.object [("Success", Json.bool response.Success),
        ("Error", Json.str response.Error),
        ("Value", Json.object [("Type", Json.intLit holder.Typ), ("Val", val)])])

/-- The call `json.Marshal(response)` of `operationHandler`: the text of the
document, or the error. How a document is spelled and what the error says are
the parameters `render` and `failText`. -/
def encodeResponse (encOther : String → String → Option Json) (render : Json → String)
    (failText : Response → String) (response : Response) : Except String String :=
  match marshalResponse encOther response with
  | none => Except.error (failText response)
  | some doc => Except.ok (render doc)

/-- A fragment of `json.NewDecoder(reader).Decode(&content)`: on a stream made
of the literal `true` followed by spaces only, the decoded value is the bool
`true`. Outside this fragment the definition answers `none`; it is used on the
fragment only. -/
def decodeTrueLiteral (stream : List UInt8) : Option Value :=
  if stream.take 4 = [116, 114, 117, 101] ∧ (stream.drop 4).all (fun b => b = 32) = true then
    some (Value.bool true)
  else none

/-! ## service.go: the control loop

`Service.Start` loads the store and spawns one goroutine that loops on a
`select` over the request channel and the quit channel. The events below are
what that `select` receives, in the order it receives them. -/

/-- What the `select` of the control loop receives: a `*Request` from the
request channel (nil when a sender sent nil), or the completion channel that
`Service.Stop` sent on the quit channel. -/
inductive Event where
  | request (r : Option Request) : Event
  | quit : Event

/-- State of the control loop and what it has done so far: the store and the
file system, the responses sent with the request whose reply channel each was
sent on, the calls of `SaveToDisk`, the lines logged, the completion
acknowledgments sent, and whether the goroutine has returned. -/
structure Loop where
  store : Store
  disk : Disk
  replies : List (Request × Response)
  saves : Nat
  logged : List String
  acks : Nat
  stopped : Bool

/-- Method `Service.Start` up to the `go` statement: `ReadFromDisk` (its result
is dropped), then the loop starts with nothing done yet. -/
def Service.Start (ks : Service) (d : Disk) : Loop :=
  { store := (ks.store.ReadFromDisk d).1, disk := d, replies := [], saves := 0, logged := [],
    acks := 0, stopped := false }

/-- One iteration of the `for`/`select` of `Service.Start`. On a request: the
switch on `request.Op` (a nil request panics there), then the response is sent
on the request's reply channel. On quit: `SaveToDisk`, its error logged if
any, `complete <- true`, `return`. Once the goroutine has returned nothing
receives any more. `none` is a panic of the goroutine. The keys that
`json.Marshal` visits in the map are given by `keysOf`. -/
def Loop.step (encOther : String → String → Option Json) (keysOf : Store → List String)
    (l : Loop) (e : Event) : Option Loop :=
  if l.stopped then some l
  else
    match e with
    | Event.request none => none
    | Event.request (some request) =>
      match handleRequest l.store request with
      | none => none
      | some (store1, response) =>
        some { l with store := store1, replies := l.replies ++ [(request, response)] }
    | Event.quit =>
      let saved := l.store.SaveToDisk encOther (keysOf l.store) l.disk
      some { l with
        disk := saved.1,
        saves := l.saves + 1,
        logged :=
          match saved.2.1 with
          | some msg => l.logged ++ ["Error saving values to disk: " ++ msg]
          | none => l.logged,
        acks := l.acks + 1,
        stopped := true }

/-- The control loop over the events it receives. -/
def Loop.run (encOther : String → String → Option Json) (keysOf : Store → List String) :
    Loop → List Event → Option Loop
  | l, [] => some l
  | l, e :: rest =>
    match Loop.step encOther keysOf l e with
    | none => none
    | some l1 => Loop.run encOther keysOf l1 rest

/-! ## transport/tcpclient.go, udpclient.go, udpserver.go

The wire format is `encoding/gob`, outside the repository. A decoding step is
given by its outcome: what `Decode` left in the target, and the error it
returned. -/

/-- Body of the request branch of `TCPClient.Connect` from the decoding of the
reply on: `decoded` is the outcome of `client.decoder.Decode(response)` on a
fresh `&Response{}`. The result is what is sent on the request's reply
channel. -/
def TCPClient.reply (decoded : Response × GoError) : List Response :=
  let response : Response :=
    match decoded.2 with
    | some msg => if decoded.1.Error = "" then { decoded.1 with Error := msg } else decoded.1
    | none => decoded.1
  [response]

/-- Body of the request branch of `UDPClient.Connect` from the decoding of the
reply packet on; the same steps as in the stream client. -/
def UDPClient.reply (decoded : Response × GoError) : List Response :=
  let response : Response :=
    match decoded.2 with
    | some msg => if decoded.1.Error = "" then { decoded.1 with Error := msg } else decoded.1
    | none => decoded.1
  [response]

/-- One iteration of the receive loop of `UDPServer.connect`, with the
dispatcher of a running service behind `server.requests`: `readErr` is the
error of `ReadFromUDP`, `decoded` the outcome of decoding the packet into a
fresh `&Request{}`. The result is the store afterwards and the Response
packets written back to the sender. `none` when the dispatcher panics. -/
def UDPServer.onPacket (store : Store) (readErr : GoError) (decoded : Request × GoError) :
    Option (Store × List Response) :=
  match readErr with
  | some _ => some (store, [])
  | none =>
    match decoded.2 with
    | some msg => some (store, [{ Success := false, Error := msg, Value := none }])
    | none =>
      match handleRequest store decoded.1 with
      | none => none
      | some (store1, response) => some (store1, [response])

/-! ## Properties -/

/-! ### Auxiliary facts about the store -/

theorem Store.ext_fields {s t : Store} (hp : s.filePath = t.filePath)
    (hn : s.mapIsNil = t.mapIsNil) (hv : ∀ k, s.values k = t.values k) : s = t := by
  obtain ⟨p1, t1⟩ := s
  obtain ⟨p2, t2⟩ := t
  simp only at hp
  subst hp
  cases t1 with
  | none =>
    cases t2 with
    | none => rfl
    | some m2 => simp [Store.mapIsNil] at hn
  | some m1 =>
    cases t2 with
    | none => simp [Store.mapIsNil] at hn
    | some m2 =>
      have hm : m1 = m2 := funext hv
      rw [hm]

theorem Store.values_holding (s : Store) (k : String) (v : Value) (k' : String) :
    (s.holding k v).values k' = if k' = k then some v else s.values k' := rfl

theorem Store.mapIsNil_holding (s : Store) (k : String) (v : Value) :
    (s.holding k v).mapIsNil = false := rfl

theorem Store.filePath_holding (s : Store) (k : String) (v : Value) :
    (s.holding k v).filePath = s.filePath := rfl

/-- A store that holds something has a map. -/
theorem Store.mapIsNil_of_values {s : Store} {k : String} {v : Value}
    (h : s.values k = some v) : s.mapIsNil = false := by
  obtain ⟨p, t⟩ := s
  cases t with
  | none => simp [Store.values] at h
  | some m => rfl

/-- The untyped write: a panic on the nil map, otherwise the value is stored
and nil returned. -/
theorem Store.SetValue_eq (s : Store) (k : String) (v : Value) :
    s.SetValue k v = if s.mapIsNil = true then none else some (s.holding k v, none) := by
  obtain ⟨p, t⟩ := s
  cases t with
  | none => rfl
  | some m => rfl

theorem Store.SetValue_of_map {s : Store} (h : s.mapIsNil = false) (k : String) (v : Value) :
    s.SetValue k v = some (s.holding k v, none) := by
  rw [Store.SetValue_eq, h]
  rfl

theorem Store.values_DeleteKey (s : Store) (k k' : String) :
    (s.DeleteKey k).values k' = if k' = k then none else s.values k' := by
  obtain ⟨p, t⟩ := s
  cases t with
  | none => simp [Store.DeleteKey, Store.values]
  | some m => rfl

theorem Store.mapIsNil_DeleteKey (s : Store) (k : String) :
    (s.DeleteKey k).mapIsNil = s.mapIsNil := by
  obtain ⟨p, t⟩ := s
  cases t <;> rfl

theorem Store.GetValue_present {s : Store} {k : String} {v : Value} (h : s.values k = some v) :
    s.GetValue k = (v, none) := by
  simp [Store.GetValue, h]

theorem Store.GetValue_absent {s : Store} {k : String} (h : s.values k = none) :
    s.GetValue k = (Value.nil, some (keyNotFoundMessage k)) := by
  simp [Store.GetValue, h, generateError, keyNotFoundMessage]

theorem Store.getKind_absent {s : Store} {k : String} (h : s.values k = none) (T : Kind) :
    s.getKind T k = (Value.nil, some (keyNotFoundMessage k)) := by
  cases T <;>
    simp [Store.getKind, Store.GetBool, Store.GetInt, Store.GetFloat, Store.GetString,
      Store.GetArray, Store.GetMap, Store.getAsserted, Store.GetValue_absent h]

/-- A typed accessor on a present key: the stored value when its runtime type
is the requested one, otherwise the zero value and the type error. -/
theorem Store.getKind_present {s : Store} {k : String} {v : Value} (h : s.values k = some v)
    (T : Kind) :
    s.getKind T k =
      if v.kind = some T then (v, none) else (T.zeroValue, some (typeMismatchMessage k)) := by
  cases T <;> cases v <;>
    simp [Store.getKind, Store.GetBool, Store.GetInt, Store.GetFloat, Store.GetString,
      Store.GetArray, Store.GetMap, Store.getAsserted, Store.GetValue_present h, Value.kind,
      assertBool, assertInt, assertFloat, assertString, assertArray, assertMap,
      generateTypeError, generateError, typeMismatchMessage, Kind.zeroValue]

/-- A typed setter stores the value when its runtime type is the declared one
and otherwise returns the type error, the store untouched. -/
theorem Store.setKind_eq (s : Store) (k : String) (T : Kind) (v : Value) :
    s.setKind T k v =
      if v.kind = some T then
        (if s.mapIsNil = true then none else some (s.holding k v, none))
      else some (s, some (typeMismatchMessage k)) := by
  by_cases hn : s.mapIsNil = true <;> cases T <;> cases v <;>
    simp [Store.setKind, Store.SetBool, Store.SetInt, Store.SetFloat, Store.SetString,
      Store.SetArray, Store.SetMap, Store.setValueOrReturnError, Value.kind,
      assertBool, assertInt, assertFloat, assertString, assertArray, assertMap,
      generateTypeError, generateError, typeMismatchMessage, Store.SetValue_eq, hn]

theorem keyNotFoundMessage_ne_empty (k : String) : keyNotFoundMessage k ≠ "" := by
  intro h
  have hd := congrArg String.data h
  simp [keyNotFoundMessage, String.data_append] at hd

theorem typeMismatchMessage_ne_empty (k : String) : typeMismatchMessage k ≠ "" := by
  intro h
  have hd := congrArg String.data h
  simp [typeMismatchMessage, String.data_append] at hd

/-! ### Auxiliary facts about the dispatcher -/

theorem Kind.ofTag?_tag (T : Kind) : Kind.ofTag? T.tag = some T := by
  cases T <;> simp [Kind.ofTag?, Kind.tag, BOOL, INT, FLOAT, STRING, ARRAY, MAP]

theorem Kind.ofTag?_eq_some {t : DType} {T : Kind} : Kind.ofTag? t = some T ↔ T.tag = t := by
  constructor
  · intro h
    unfold Kind.ofTag? at h
    split_ifs at h <;> simp_all [Kind.tag]
    all_goals (subst h; simp [Kind.tag])
  · intro h
    rw [← h]
    exact Kind.ofTag?_tag T

theorem isConcrete_iff_tag (t : DType) : isConcrete t ↔ ∃ T : Kind, T.tag = t := by
  constructor
  · intro h
    rcases h with h | h | h | h | h | h
    · exact ⟨Kind.bool, h.symm⟩
    · exact ⟨Kind.int, h.symm⟩
    · exact ⟨Kind.float, h.symm⟩
    · exact ⟨Kind.string, h.symm⟩
    · exact ⟨Kind.array, h.symm⟩
    · exact ⟨Kind.map, h.symm⟩
  · rintro ⟨T, hT⟩
    subst hT
    cases T <;> simp [isConcrete, Kind.tag]

theorem Kind.ofTag?_eq_none {t : DType} : Kind.ofTag? t = none ↔ ¬ isConcrete t := by
  rw [isConcrete_iff_tag]
  constructor
  · intro h hc
    obtain ⟨T, hT⟩ := hc
    rw [← hT, Kind.ofTag?_tag] at h
    simp at h
  · intro h
    cases hk : Kind.ofTag? t with
    | none => rfl
    | some T => exact absurd ⟨T, Kind.ofTag?_eq_some.mp hk⟩ h

theorem accepts_iff (t : DType) (v : Value) :
    accepts t v = true ↔ (¬ isConcrete t ∨ ∃ T : Kind, T.tag = t ∧ v.kind = some T) := by
  unfold accepts
  cases hk : Kind.ofTag? t with
  | none => simp [Kind.ofTag?_eq_none.mp hk]
  | some T =>
    have hT : T.tag = t := Kind.ofTag?_eq_some.mp hk
    constructor
    · intro h
      exact Or.inr ⟨T, hT, by simpa using h⟩
    · rintro (h | ⟨U, hU, hv⟩)
      · exact absurd ((isConcrete_iff_tag t).mpr ⟨T, hT⟩) h
      · have hUT : U = T := by
          have := Kind.ofTag?_eq_some.mpr hU
          rw [hk] at this
          exact (Option.some.inj this).symm
        subst hUT
        simpa using hv

/-- The switch of `readValue` selects the accessor of the declared type. -/
theorem readValue_eq (s : Store) (op : Op) (k : String) (t : DType) (payload : Value)
    (resp : Response) :
    readValue s { Op := op, Key := k, Value := some { Typ := t, Val := payload } } resp =
      some (setOutcome
        { resp with Value := some { Typ := t, Val := (s.getDeclared t k).1 } }
        (s.getDeclared t k).2) := by
  simp only [readValue, Store.getDeclared, Kind.ofTag?]
  split_ifs <;> simp [Store.getKind]

theorem Store.getDeclared_tag (T : Kind) (s : Store) (k : String) :
    s.getDeclared T.tag k = s.getKind T k := by
  simp [Store.getDeclared, Kind.ofTag?_tag]

theorem Store.getDeclared_NONE (s : Store) (k : String) :
    s.getDeclared NONE k = s.GetValue k := by
  simp [Store.getDeclared, Kind.ofTag?, NONE, BOOL, INT, FLOAT, STRING, ARRAY, MAP]

/-- Every error an accessor returns has a non-empty message. -/
theorem Store.getDeclared_error_ne_empty (t : DType) (s : Store) (k : String) (msg : String)
    (h : (s.getDeclared t k).2 = some msg) : msg ≠ "" := by
  unfold Store.getDeclared at h
  cases hs : s.values k with
  | none =>
    cases hk : Kind.ofTag? t with
    | none =>
      rw [hk] at h
      simp only [Store.GetValue_absent hs] at h
      rw [← Option.some.inj h]
      exact keyNotFoundMessage_ne_empty k
    | some T =>
      rw [hk] at h
      simp only [Store.getKind_absent hs] at h
      rw [← Option.some.inj h]
      exact keyNotFoundMessage_ne_empty k
  | some x =>
    cases hk : Kind.ofTag? t with
    | none =>
      rw [hk] at h
      simp [Store.GetValue_present hs] at h
    | some T =>
      rw [hk] at h
      simp only [Store.getKind_present hs] at h
      by_cases hx : x.kind = some T
      · simp [hx] at h
      · simp only [if_neg hx] at h
        rw [← Option.some.inj h]
        exact typeMismatchMessage_ne_empty k

/-- The switch of `writeValue` selects the setter of the declared type. -/
theorem writeValue_eq (s : Store) (op : Op) (k : String) (t : DType) (v : Value)
    (resp : Response) :
    writeValue s { Op := op, Key := k, Value := some { Typ := t, Val := v } } resp =
      Option.map (fun r : Store × GoError => (r.1, setOutcome resp r.2))
        (match Kind.ofTag? t with
          | some T => s.setKind T k v
          | none => Option.map (fun r : Store × GoError => (r.1, none)) (s.SetValue k v)) := by
  simp only [writeValue, Kind.ofTag?]
  split_ifs <;> simp [Store.setKind]

/-- Handling a WRITE request. A rejected write leaves the store untouched and
is answered with the type error. An accepted write panics on a nil map;
otherwise the value is stored and the reply is a success. -/
theorem handleRequest_write_eq (s : Store) (k : String) (t : DType) (v : Value) :
    handleRequest s (NewWriteRequest k t v) =
      if accepts t v = true then
        (if s.mapIsNil = true then none
          else some (s.holding k v, { Success := true, Error := "", Value := none }))
      else some (s, { Success := false, Error := typeMismatchMessage k, Value := none }) := by
  have hop : (NewWriteRequest k t v).Op ≠ READ := by simp [NewWriteRequest, READ, WRITE]
  simp only [handleRequest, if_neg hop]
  simp only [NewWriteRequest, if_true, writeValue_eq]
  cases hk : Kind.ofTag? t with
  | none =>
    have ha : accepts t v = true := by simp [accepts, hk]
    by_cases hn : s.mapIsNil = true <;> simp [ha, setOutcome, Store.SetValue_eq, hn]
  | some T =>
    have ha : accepts t v = decide (v.kind = some T) := by simp [accepts, hk]
    simp only [Store.setKind_eq, ha]
    by_cases hv : v.kind = some T <;> by_cases hn : s.mapIsNil = true <;>
      simp [hv, hn, setOutcome]

/-- Handling a WRITE request on a store whose map is not nil: the value is
stored and the reply is a success when the write is accepted; otherwise the
store is untouched and the reply carries the type error. -/
theorem handleRequest_write (s : Store) (hmap : s.mapIsNil = false) (k : String) (t : DType)
    (v : Value) :
    handleRequest s (NewWriteRequest k t v) =
      some (if accepts t v then
          (s.holding k v, { Success := true, Error := "", Value := none })
        else (s, { Success := false, Error := typeMismatchMessage k, Value := none })) := by
  rw [handleRequest_write_eq, hmap]
  by_cases ha : accepts t v = true <;> simp [ha]

/-- Handling a READ request leaves the store as it is. -/
theorem handleRequest_read (s : Store) (k : String) (t : DType) (payload : Value) :
    handleRequest s { Op := READ, Key := k, Value := some { Typ := t, Val := payload } } =
      (readValue s { Op := READ, Key := k, Value := some { Typ := t, Val := payload } }
        { Success := false, Error := "", Value := none }).map (fun r => (s, r)) := by
  simp [handleRequest]

/-- A sequence whose last write is accepted has that write's payload as its
last accepted payload. -/
theorem lastAccepted_of_getLast? (ws : List (DType × Value)) (t : DType) (v : Value)
    (hl : ws.getLast? = some (t, v)) (ha : accepts t v = true) : lastAccepted ws = some v := by
  induction ws with
  | nil => simp at hl
  | cons w rest ih =>
    cases rest with
    | nil =>
      simp only [List.getLast?_singleton, Option.some.injEq] at hl
      subst hl
      simp [lastAccepted, ha]
    | cons w' rest' =>
      rw [List.getLast?_cons_cons] at hl
      show (match lastAccepted (w' :: rest') with
        | some x => some x
        | none => if accepts w.1 w.2 then some w.2 else none) = some v
      rw [ih hl]

/-- The control loop fed with WRITE requests on one key: every request is
answered, and the key ends with the payload of the last accepted write, or as
it started when no write is accepted; other keys are not touched. -/
theorem serve_writesOn (k : String) (ws : List (DType × Value)) (s : Store)
    (hmap : s.mapIsNil = false) :
    ∃ (s' : Store) (rs : List Response), serve s (writesOn k ws) = some (s', rs) ∧
      rs.length = ws.length ∧
      s'.values k = (match lastAccepted ws with
        | some v => some v
        | none => s.values k) ∧
      (∀ k', k' ≠ k → s'.values k' = s.values k') := by
  induction ws generalizing s with
  | nil => exact ⟨s, [], rfl, rfl, rfl, fun _ _ => rfl⟩
  | cons w rest ih =>
    obtain ⟨t, v⟩ := w
    by_cases ha : accepts t v = true
    · obtain ⟨s', rs, hs, hlen, hk, hother⟩ := ih (s.holding k v) rfl
      refine ⟨s', { Success := true, Error := "", Value := none } :: rs, ?_, ?_, ?_, ?_⟩
      · simp only [writesOn, List.map_cons, serve, handleRequest_write s hmap, if_pos ha]
        simp only [writesOn] at hs
        rw [hs]
      · simp [hlen]
      · rw [hk]
        cases hl : lastAccepted rest with
        | none => simp [lastAccepted, hl, ha, Store.values_holding]
        | some x => simp [lastAccepted, hl]
      · intro k' hk'
        rw [hother k' hk', Store.values_holding, if_neg hk']
    · obtain ⟨s', rs, hs, hlen, hk, hother⟩ := ih s hmap
      refine ⟨s', { Success := false, Error := typeMismatchMessage k, Value := none } :: rs,
        ?_, ?_, ?_, ?_⟩
      · simp only [writesOn, List.map_cons, serve, handleRequest_write s hmap, if_neg ha]
        simp only [writesOn] at hs
        rw [hs]
      · simp [hlen]
      · rw [hk]
        cases hl : lastAccepted rest with
        | none => simp [lastAccepted, hl, ha]
        | some x => simp [lastAccepted, hl]
      · exact hother

/-! ### Auxiliary facts about the file -/

mutual
/-- A stable value is encoded, and decoding the encoding gives it back. -/
theorem roundTrip_value (enc : String → String → Option Json) :
    ∀ v : Value, v.jsonStable = true →
      ∃ j, marshalValue enc v = some j ∧ unmarshalValue j = v
  | Value.nil, _ => ⟨Json.null, by simp [marshalValue], by simp [unmarshalValue]⟩
  | Value.bool b, _ => ⟨Json.bool b, by simp [marshalValue], by simp [unmarshalValue]⟩
  | Value.int _, h => by simp [Value.jsonStable] at h
  | Value.float bits, h => by
    simp [Value.jsonStable] at h
    exact ⟨Json.floatLit bits, by simp [marshalValue, h], by simp [unmarshalValue]⟩
  | Value.str s, _ => ⟨Json.str s, by simp [marshalValue], by simp [unmarshalValue]⟩
  | Value.nilArray, h => by simp [Value.jsonStable] at h
  | Value.array xs, h => by
    simp only [Value.jsonStable] at h
    obtain ⟨js, h1, h2⟩ := roundTrip_list enc xs h
    exact ⟨Json.array js, by simp [marshalValue, h1], by simp [unmarshalValue, h2]⟩
  | Value.nilMap, h => by simp [Value.jsonStable] at h
  | Value.map kvs, h => by
    simp only [Value.jsonStable] at h
    obtain ⟨js, h1, h2⟩ := roundTrip_fields enc kvs h
    exact ⟨Json.object js, by simp [marshalValue, h1], by simp [unmarshalValue, h2]⟩
  | Value.other _ _, h => by simp [Value.jsonStable] at h
theorem roundTrip_list (enc : String → String → Option Json) :
    ∀ xs : List Value, Value.jsonStableList xs = true →
      ∃ js, marshalList enc xs = some js ∧ unmarshalList js = xs
  | [], _ => ⟨[], by simp [marshalList], by simp [unmarshalList]⟩
  | v :: rest, h => by
    simp only [Value.jsonStableList, Bool.and_eq_true] at h
    obtain ⟨j, h1, h2⟩ := roundTrip_value enc v h.1
    obtain ⟨js, h3, h4⟩ := roundTrip_list enc rest h.2
    exact ⟨j :: js, by simp [marshalList, h1, h3], by simp [unmarshalList, h2, h4]⟩
theorem roundTrip_fields (enc : String → String → Option Json) :
    ∀ kvs : List (String × Value), Value.jsonStableFields kvs = true →
      ∃ js, marshalFields enc kvs = some js ∧ unmarshalFields js = kvs
  | [], _ => ⟨[], by simp [marshalFields], by simp [unmarshalFields]⟩
  | (k, v) :: rest, h => by
    simp only [Value.jsonStableFields, Bool.and_eq_true] at h
    obtain ⟨j, h1, h2⟩ := roundTrip_value enc v h.1
    obtain ⟨js, h3, h4⟩ := roundTrip_fields enc rest h.2
    exact ⟨(k, j) :: js, by simp [marshalFields, h1, h3], by simp [unmarshalFields, h2, h4]⟩
end

/-- A map of stable values is encoded, and putting the decoded members into a
map gives, on the keys visited that the map holds, the entries of the map. -/
theorem marshalMap_storeMembers (enc : String → String → Option Json)
    (values : String → Option Value)
    (hst : ∀ k v, values k = some v → v.jsonStable = true) (keys : List String) :
    ∃ members, marshalMap enc values keys = some members ∧
      ∀ (init : String → Option Value) (k : String),
        storeMembers members init k =
          if k ∈ keys ∧ (values k).isSome = true then values k else init k := by
  induction keys with
  | nil => exact ⟨[], rfl, fun init k => by simp [storeMembers]⟩
  | cons k0 rest ih =>
    obtain ⟨members, hm, hs⟩ := ih
    cases hv : values k0 with
    | none =>
      refine ⟨members, by simp [marshalMap, hv, hm], ?_⟩
      intro init k
      rw [hs]
      by_cases hk : k = k0
      · subst hk
        simp [hv]
      · simp [hk]
    | some v =>
      obtain ⟨j, hj, hu⟩ := roundTrip_value enc v (hst k0 v hv)
      refine ⟨(k0, j) :: members, by simp [marshalMap, hv, hm, hj], ?_⟩
      intro init k
      simp only [storeMembers, hs, hu]
      by_cases hk : k = k0
      · subst hk
        simp [hv]
      · simp [hk]

/-- Whatever happens on the way, `ReadFromDisk` returns nil. -/
theorem Store.ReadFromDisk_error (s : Store) (d : Disk) : (s.ReadFromDisk d).2.1 = none := by
  unfold Store.ReadFromDisk
  simp only
  split_ifs
  · split
    · rfl
    · split <;> rfl
  · rfl

/-- Whatever happens on the way, `SaveToDisk` returns nil. -/
theorem Store.SaveToDisk_error (enc : String → String → Option Json) (keys : List String)
    (s : Store) (d : Disk) : (s.SaveToDisk enc keys d).2.1 = none := by
  unfold Store.SaveToDisk
  simp only
  split_ifs
  · split
    · rfl
    · split
      · rfl
      · split <;> rfl
  · rfl

/-! ### Auxiliary facts about the text transport -/

/-- A POST to a non-empty key is decided by what decodes from the first 1024
bytes of the body. -/
theorem routeRequest_post (decode : List UInt8 → Option Value) (r : HttpRequest)
    (hpath : r.Path ≠ "") (hkey : pathKey r.Path ≠ "") (hm : r.Method = "POST") :
    routeRequest decode r =
      match decode (r.Body.take 1024) with
      | none =>
        some (Routed.replied
          { Status := 400, ContentType := "application/json; charset=UTF-8", Body := "" })
      | some content =>
        some (Routed.sent (some (NewWriteRequest (pathKey r.Path) NONE content))) := by
  simp only [routeRequest, if_neg hpath, if_neg hkey, if_pos hm, limitReader, MaxRequestLength]

/-- A POST whose first 1024 bytes decode is forwarded as an untyped WRITE. -/
theorem routeRequest_post_some (decode : List UInt8 → Option Value) (path : String)
    (body : List UInt8) (content : Value) (hpath : path ≠ "") (hkey : pathKey path ≠ "")
    (hd : decode (body.take 1024) = some content) :
    routeRequest decode { Method := "POST", Path := path, Body := body } =
      some (Routed.sent (some (NewWriteRequest (pathKey path) NONE content))) := by
  rw [routeRequest_post decode _ hpath hkey rfl]
  simp only [hd]

/-! ### Auxiliary facts about the control loop -/

/-- Once the goroutine has returned, no event changes anything. -/
theorem Loop.run_stopped (enc : String → String → Option Json) (keysOf : Store → List String)
    (l : Loop) (h : l.stopped = true) (events : List Event) :
    Loop.run enc keysOf l events = some l := by
  induction events with
  | nil => rfl
  | cons e rest ih => simp [Loop.run, Loop.step, h, ih]

/-! ### The claims -/

/-- C1: for a key absent from the map, `GetValue` and each of the six typed
accessors return the nil value together with the key-not-found error
"The key '<k>' specified does not exist"; none of them returns the
type-mismatch error. -/
theorem absent_key_get_fails (s : Store) (k : String) (h : s.values k = none) :
    s.GetValue k = (Value.nil, some (keyNotFoundMessage k)) ∧
    s.GetBool k = (Value.nil, some (keyNotFoundMessage k)) ∧
    s.GetInt k = (Value.nil, some (keyNotFoundMessage k)) ∧
    s.GetFloat k = (Value.nil, some (keyNotFoundMessage k)) ∧
    s.GetString k = (Value.nil, some (keyNotFoundMessage k)) ∧
    s.GetArray k = (Value.nil, some (keyNotFoundMessage k)) ∧
    s.GetMap k = (Value.nil, some (keyNotFoundMessage k)) ∧
    some (keyNotFoundMessage k) ≠ generateTypeError k := by
  have hv : s.GetValue k = (Value.nil, some (keyNotFoundMessage k)) := by
    simp [Store.GetValue, h, generateError, keyNotFoundMessage]
  have ha : ∀ assert, Store.getAsserted assert s k = (Value.nil, some (keyNotFoundMessage k)) := by
    intro assert
    simp [Store.getAsserted, hv]
  refine ⟨hv, ha _, ha _, ha _, ha _, ha _, ha _, ?_⟩
  intro hne
  have hd := congrArg String.data (Option.some.inj hne)
  simp [keyNotFoundMessage, String.data_append] at hd

/-- Witness of C1 on the empty store and the key "missing". -/
theorem absent_key_get_fails_witness :
    NewEmptyStore.values "missing" = none ∧
    NewEmptyStore.GetValue "missing" = (Value.nil, some "The key 'missing' specified does not exist") ∧
    NewEmptyStore.GetInt "missing" = (Value.nil, some "The key 'missing' specified does not exist") :=
  ⟨rfl, (absent_key_get_fails NewEmptyStore "missing" rfl).1,
    (absent_key_get_fails NewEmptyStore "missing" rfl).2.2.1⟩

/-- C2 as stated fails: a store that loaded a file holding `null` has a nil
map; on it `SetValue` panics instead of returning nil, and the dispatcher
panics on the untyped WRITE, so that no READ response follows. -/
theorem untyped_set_panics_on_nil_map :
    nullFileStore = { filePath := "store.json", table := none } ∧
    nullFileStore.SetValue "a" (Value.str "1") = none ∧
    serve nullFileStore
      [NewWriteRequest "a" NONE (Value.str "1"), NewReadRequest "a" NONE] = none :=
  ⟨rfl, rfl, rfl⟩

/-- C2, amended: on every store whose map is not nil, for every key and value
the untyped `SetValue` returns nil and leaves the value at the key, and
`GetValue` on the key then returns that value with no error. Through the
dispatcher, an untyped WRITE(k, v) followed by an untyped READ(k) are both
answered with Success = true and Error = "", the READ carrying `Val = v`. -/
theorem untyped_set_then_get (s : Store) (hmap : s.mapIsNil = false) (k : String) (v : Value) :
    s.SetValue k v = some (s.holding k v, none) ∧
    (s.holding k v).GetValue k = (v, none) ∧
    serve s [NewWriteRequest k NONE v, NewReadRequest k NONE] =
      some (s.holding k v,
        [{ Success := true, Error := "", Value := none },
         { Success := true, Error := "", Value := some { Typ := NONE, Val := v } }]) := by
  have hg : (s.holding k v).GetValue k = (v, none) :=
    Store.GetValue_present (by simp [Store.values_holding])
  have hacc : accepts NONE v = true := by
    simp [accepts, Kind.ofTag?, NONE, BOOL, INT, FLOAT, STRING, ARRAY, MAP]
  have hread : handleRequest (s.holding k v) (NewReadRequest k NONE) =
      some (s.holding k v,
        { Success := true, Error := "", Value := some { Typ := NONE, Val := v } }) := by
    simp [handleRequest, NewReadRequest, readValue, setOutcome,
      READ, NONE, BOOL, INT, FLOAT, STRING, ARRAY, MAP, hg]
  refine ⟨Store.SetValue_of_map hmap k v, hg, ?_⟩
  simp only [serve, handleRequest_write s hmap, if_pos hacc, hread]

/-- Witness of C2 amended: the text-transport scenario, "1" set at "a" on the
empty store and read back. -/
theorem untyped_set_then_get_witness :
    NewEmptyStore.mapIsNil = false ∧
    NewEmptyStore.SetValue "a" (Value.str "1") =
      some (NewEmptyStore.holding "a" (Value.str "1"), none) ∧
    serve NewEmptyStore [NewWriteRequest "a" NONE (Value.str "1"), NewReadRequest "a" NONE] =
      some (NewEmptyStore.holding "a" (Value.str "1"),
        [{ Success := true, Error := "", Value := none },
         { Success := true, Error := "", Value := some { Typ := NONE, Val := Value.str "1" } }]) :=
  ⟨rfl, (untyped_set_then_get NewEmptyStore rfl "a" (Value.str "1")).1,
    (untyped_set_then_get NewEmptyStore rfl "a" (Value.str "1")).2.2⟩

/-- C3: for a value `v` whose runtime type is the concrete type `T`,
`Set<T>(k, v)` succeeds with no error on every store whose map is not nil, and
after every successful `Set<T>(k, v)`, `Get<T>(k)` returns `v` itself with no
error, while `Get<U>(k)` for every other concrete `U` returns the error
"The value for key '<k>' is not of the correct type" together with the zero
value of `U`. No accessor coerces: whenever a typed accessor returns no error,
on any store, its result is the stored value and has the requested runtime
type. -/
theorem typed_set_get_roundtrip (s : Store) (k : String) (T U : Kind) (v : Value)
    (hv : v.kind = some T) :
    (s.mapIsNil = false → s.setKind T k v = some (s.holding k v, none)) ∧
    (∀ (s1 : Store) (e : GoError), s.setKind T k v = some (s1, e) →
      e = none ∧
      (U = T → s1.getKind U k = (v, none)) ∧
      (U ≠ T → s1.getKind U k = (U.zeroValue, some (typeMismatchMessage k)))) ∧
    (∀ (s' : Store) (w : Value), s'.getKind U k = (w, none) →
      s'.values k = some w ∧ w.kind = some U) := by
  have hval : (s.holding k v).values k = some v := by simp [Store.values_holding]
  refine ⟨?_, ?_, ?_⟩
  · intro hmap
    rw [Store.setKind_eq, if_pos hv, hmap]
    rfl
  · intro s1 e hset
    rw [Store.setKind_eq, if_pos hv] at hset
    by_cases hn : s.mapIsNil = true
    · rw [if_pos hn] at hset
      simp at hset
    · rw [if_neg hn] at hset
      simp only [Option.some.injEq, Prod.mk.injEq] at hset
      obtain ⟨hs1, he⟩ := hset
      subst hs1
      refine ⟨he.symm, ?_, ?_⟩
      · intro hU
        rw [Store.getKind_present hval, hU, if_pos hv]
      · intro hU
        have hne : ¬ v.kind = some U := by
          rw [hv]
          intro h
          exact hU (Option.some.inj h).symm
        rw [Store.getKind_present hval, if_neg hne]
  · intro s' w hw
    cases hs : s'.values k with
    | none =>
      rw [Store.getKind_absent hs] at hw
      simp at hw
    | some x =>
      rw [Store.getKind_present hs] at hw
      by_cases hx : x.kind = some U
      · rw [if_pos hx] at hw
        have hxw : x = w := (Prod.mk.inj hw).1
        subst hxw
        exact ⟨rfl, hx⟩
      · rw [if_neg hx] at hw
        simp at hw

/-- Witness of C3: a string stored with `SetString` is read back by
`GetString`. -/
theorem typed_set_get_roundtrip_witness :
    (Value.str "1").kind = some Kind.string ∧
    NewEmptyStore.mapIsNil = false ∧
    NewEmptyStore.SetString "a" (Value.str "1") =
      some (NewEmptyStore.holding "a" (Value.str "1"), none) ∧
    (NewEmptyStore.holding "a" (Value.str "1")).GetString "a" = (Value.str "1", none) :=
  ⟨rfl, rfl,
    (typed_set_get_roundtrip NewEmptyStore "a" Kind.string Kind.string (Value.str "1") rfl).1 rfl,
    ((typed_set_get_roundtrip NewEmptyStore "a" Kind.string Kind.string (Value.str "1") rfl).2.1
      (NewEmptyStore.holding "a" (Value.str "1")) none rfl).2.1 rfl⟩

/-- C4: for a value whose runtime type is not the concrete type `T`,
`Set<T>(k, v)` returns the type-mismatch error for `k` and leaves the store
exactly as it was: same map (an existing entry keeps its value, an absent key
stays absent) and same path. -/
theorem typed_set_mismatch_unchanged (s : Store) (k : String) (T : Kind) (v : Value)
    (hv : v.kind ≠ some T) :
    s.setKind T k v = some (s, some (typeMismatchMessage k)) ∧
    (∀ (s1 : Store) (e : GoError), s.setKind T k v = some (s1, e) →
      s1 = s ∧ s1.values = s.values ∧ e = some (typeMismatchMessage k)) := by
  have h : s.setKind T k v = some (s, some (typeMismatchMessage k)) := by
    rw [Store.setKind_eq, if_neg hv]
  refine ⟨h, ?_⟩
  intro s1 e h1
  rw [h] at h1
  simp only [Option.some.injEq, Prod.mk.injEq] at h1
  obtain ⟨hs, he⟩ := h1
  subst hs
  exact ⟨rfl, rfl, he.symm⟩

/-- Witness of C4: `SetInt` of a string on a store that holds `true` at "a". -/
theorem typed_set_mismatch_unchanged_witness :
    (Value.str "x").kind ≠ some Kind.int ∧
    (NewEmptyStore.holding "a" (Value.bool true)).SetInt "a" (Value.str "x") =
      some (NewEmptyStore.holding "a" (Value.bool true),
        some "The value for key 'a' is not of the correct type") ∧
    (NewEmptyStore.holding "a" (Value.bool true)).values "a" = some (Value.bool true) :=
  ⟨by simp [Value.kind],
    (typed_set_mismatch_unchanged (NewEmptyStore.holding "a" (Value.bool true))
      "a" Kind.int (Value.str "x") (by simp [Value.kind])).1,
    rfl⟩

/-- C5: `DeleteKey` never fails and is idempotent. On an absent key it leaves
the store as it is; applied twice it gives the store that one application
gives; afterwards `GetValue` and every typed accessor fail on the key with the
key-not-found error and `KeyExists` is false; and the dispatcher answers every
DELETE request, whatever it carries, with Success = true and an empty
Error. -/
theorem delete_idempotent (s : Store) (k : String) :
    (s.values k = none → s.DeleteKey k = s) ∧
    (s.DeleteKey k).DeleteKey k = s.DeleteKey k ∧
    (s.DeleteKey k).GetValue k = (Value.nil, some (keyNotFoundMessage k)) ∧
    (∀ T : Kind, (s.DeleteKey k).getKind T k = (Value.nil, some (keyNotFoundMessage k))) ∧
    (s.DeleteKey k).KeyExists k = false ∧
    (∀ vh : Option ValueHolder, handleRequest s { Op := DELETE, Key := k, Value := vh } =
      some (s.DeleteKey k, { Success := true, Error := "", Value := none })) := by
  have hdel : (s.DeleteKey k).values k = none := by simp [Store.values_DeleteKey]
  refine ⟨?_, ?_, Store.GetValue_absent hdel, Store.getKind_absent hdel, ?_, ?_⟩
  · intro h
    refine Store.ext_fields ?_ (Store.mapIsNil_DeleteKey s k) ?_
    · rfl
    intro k'
    rw [Store.values_DeleteKey]
    by_cases hk : k' = k
    · rw [if_pos hk, hk, h]
    · rw [if_neg hk]
  · refine Store.ext_fields ?_ (Store.mapIsNil_DeleteKey _ k) ?_
    · rfl
    intro k'
    simp only [Store.values_DeleteKey]
    by_cases hk : k' = k <;> simp [hk]
  · simp [Store.KeyExists, hdel]
  · intro vh
    simp [handleRequest, deleteKey, READ, WRITE, DELETE]

/-- Witness of C5 on the empty store, where the key "a" is absent. -/
theorem delete_idempotent_witness :
    NewEmptyStore.values "a" = none ∧ NewEmptyStore.DeleteKey "a" = NewEmptyStore :=
  ⟨rfl, (delete_idempotent NewEmptyStore "a").1 rfl⟩

/-- C6, at the failing input: a request whose Op is 0 matches no case of the
switch in `Service.Start`, and the response delivered for it is the untouched
`&Response{}`, with Success = false although Error is empty. -/
theorem unmatched_op_success_false_error_empty :
    ∃ r : Response,
      handleRequest NewEmptyStore { Op := 0, Key := "a", Value := some { Typ := NONE, Val := Value.nil } } =
        some (NewEmptyStore, r) ∧
      r.Success = false ∧ r.Error = "" ∧ ¬ (r.Success = true ↔ r.Error = "") :=
  ⟨{ Success := false, Error := "", Value := none }, rfl, rfl, rfl, by simp⟩

/-- For the three operations of `model.go` the response does satisfy
Success = true exactly when Error is empty. -/
theorem handleRequest_known_op_success_iff (s s' : Store) (r : Request) (resp : Response)
    (hop : r.Op = READ ∨ r.Op = WRITE ∨ r.Op = DELETE)
    (h : handleRequest s r = some (s', resp)) :
    resp.Success = true ↔ resp.Error = "" := by
  obtain ⟨op, k, vh⟩ := r
  simp only at hop
  rcases hop with hop | hop | hop
  · subst hop
    cases vh with
    | none => simp [handleRequest, readValue] at h
    | some rv =>
      obtain ⟨t, payload⟩ := rv
      rw [handleRequest_read, readValue_eq] at h
      simp only [Option.map_some', Option.some.injEq, Prod.mk.injEq] at h
      obtain ⟨-, hr⟩ := h
      subst hr
      cases he : (s.getDeclared t k).2 with
      | none => simp [setOutcome]
      | some msg =>
        have := Store.getDeclared_error_ne_empty t s k msg he
        simp [setOutcome, this]
  · subst hop
    cases vh with
    | none => simp [handleRequest, writeValue, READ, WRITE] at h
    | some rv =>
      obtain ⟨t, v⟩ := rv
      have hw := handleRequest_write_eq s k t v
      simp only [NewWriteRequest] at hw
      rw [hw] at h
      by_cases ha : accepts t v = true
      · rw [if_pos ha] at h
        by_cases hn : s.mapIsNil = true
        · rw [if_pos hn] at h
          simp at h
        · rw [if_neg hn] at h
          simp only [Option.some.injEq] at h
          rw [← (Prod.mk.inj h).2]
          simp
      · rw [if_neg ha] at h
        simp only [Option.some.injEq] at h
        rw [← (Prod.mk.inj h).2]
        simp [typeMismatchMessage_ne_empty]
  · subst hop
    simp [handleRequest, deleteKey, READ, WRITE, DELETE] at h
    rw [← h.2]
    simp

/-- C7 as stated fails: on the store that loaded a file holding `null` the
map is nil, and an untyped WRITE, which the claim says is answered with
Success = true, panics in `SetValue`: the dispatcher produces no Response. The
same request on the empty store is answered with Success = true. -/
theorem accepted_write_panics_on_nil_map :
    nullFileStore.mapIsNil = true ∧
    ¬ isConcrete NONE ∧
    handleRequest nullFileStore (NewWriteRequest "a" NONE (Value.str "1")) = none ∧
    handleRequest NewEmptyStore (NewWriteRequest "a" NONE (Value.str "1")) =
      some (NewEmptyStore.holding "a" (Value.str "1"),
        { Success := true, Error := "", Value := none }) :=
  ⟨rfl, by simp [isConcrete, NONE, BOOL, INT, FLOAT, STRING, ARRAY, MAP], rfl, rfl⟩

/-- C7, amended: on a store whose map is not nil, the response to a WRITE with
declared type `t` and payload `v` has Success = true exactly when `t` is not
one of the six concrete types or is the runtime type of `v`; then Error is
empty and the value is stored. Otherwise Success = false, Error is the
type-mismatch message for the key and the store is untouched. The response is
the same on every store whose map is not nil, whatever its file path and
contents. On a store whose map is nil a rejected write gets that same response
and an accepted write panics, so that no response is produced. -/
theorem write_success_iff_accepted (s : Store) (hmap : s.mapIsNil = false) (k : String)
    (t : DType) (v : Value) :
    ∃ (s' : Store) (r : Response), handleRequest s (NewWriteRequest k t v) = some (s', r) ∧
      (r.Success = true ↔ (¬ isConcrete t ∨ ∃ T : Kind, T.tag = t ∧ v.kind = some T)) ∧
      (r.Success = true → r.Error = "" ∧ s' = s.holding k v) ∧
      (r.Success = false → r.Error = typeMismatchMessage k ∧ s' = s) ∧
      (∀ s2 : Store, s2.mapIsNil = false →
        ∃ s2' : Store, handleRequest s2 (NewWriteRequest k t v) = some (s2', r)) ∧
      (∀ s2 : Store, s2.mapIsNil = true →
        handleRequest s2 (NewWriteRequest k t v) =
          if r.Success = true then none else some (s2, r)) := by
  by_cases ha : accepts t v = true
  · refine ⟨s.holding k v, { Success := true, Error := "", Value := none }, ?_, ?_, ?_, ?_, ?_, ?_⟩
    · rw [handleRequest_write s hmap, if_pos ha]
    · simpa using (accepts_iff t v).mp ha
    · intro _
      exact ⟨rfl, rfl⟩
    · intro h
      simp at h
    · intro s2 h2
      exact ⟨s2.holding k v, by rw [handleRequest_write s2 h2, if_pos ha]⟩
    · intro s2 h2
      rw [handleRequest_write_eq, if_pos ha, if_pos h2]
      simp
  · refine ⟨s, { Success := false, Error := typeMismatchMessage k, Value := none }, ?_, ?_, ?_, ?_, ?_, ?_⟩
    · rw [handleRequest_write s hmap, if_neg ha]
    · constructor
      · intro h
        simp at h
      · intro h
        exact absurd ((accepts_iff t v).mpr h) ha
    · intro h
      simp at h
    · intro _
      exact ⟨rfl, rfl⟩
    · intro s2 h2
      exact ⟨s2, by rw [handleRequest_write s2 h2, if_neg ha]⟩
    · intro s2 _
      rw [handleRequest_write_eq, if_neg ha]
      simp

/-- Witness of C7 amended: on the empty store a string written with declared
type INT is rejected. -/
theorem write_success_iff_accepted_witness :
    NewEmptyStore.mapIsNil = false ∧
    ∃ (s' : Store) (r : Response),
      handleRequest NewEmptyStore (NewWriteRequest "a" INT (Value.str "x")) = some (s', r) ∧
      (r.Success = false → r.Error = typeMismatchMessage "a" ∧ s' = NewEmptyStore) :=
  ⟨rfl, match write_success_iff_accepted NewEmptyStore rfl "a" INT (Value.str "x") with
    | ⟨s', r, h, _, _, hf, _⟩ => ⟨s', r, h, hf⟩⟩

/-- C8: a READ with a concrete declared type `T` is answered from the typed
accessor of `T` and leaves the store as it is. The response carries
Value.Type = T. When the store holds a value of runtime type `T` at the key the
response is Success = true, Error = "" and Val is that value. When the key is
absent, Success = false and Error is the (non-empty) key-not-found message; when
the stored value is of another type, Success = false and Error is the
(non-empty) type-mismatch message. -/
theorem typed_read_response (s : Store) (k : String) (T : Kind) (payload : Value) :
    ∃ r : Response,
      handleRequest s { Op := READ, Key := k, Value := some { Typ := T.tag, Val := payload } } =
        some (s, r) ∧
      r.Value.map ValueHolder.Typ = some T.tag ∧
      (∀ v, s.values k = some v → v.kind = some T →
        r = { Success := true, Error := "", Value := some { Typ := T.tag, Val := v } }) ∧
      (s.values k = none →
        r.Success = false ∧ r.Error = keyNotFoundMessage k ∧ r.Error ≠ "") ∧
      (∀ v, s.values k = some v → v.kind ≠ some T →
        r.Success = false ∧ r.Error = typeMismatchMessage k ∧ r.Error ≠ "") := by
  refine ⟨setOutcome
    { Success := false, Error := "", Value := some { Typ := T.tag, Val := (s.getDeclared T.tag k).1 } }
    (s.getDeclared T.tag k).2, ?_, ?_, ?_, ?_, ?_⟩
  · rw [handleRequest_read, readValue_eq]
    rfl
  · cases he : (s.getDeclared T.tag k).2 <;> simp [setOutcome, he]
  · intro v hv hT
    simp [Store.getDeclared_tag, Store.getKind_present hv, hT, setOutcome]
  · intro hs
    simp [Store.getDeclared_tag, Store.getKind_absent hs, setOutcome,
      keyNotFoundMessage_ne_empty]
  · intro v hv hT
    simp [Store.getDeclared_tag, Store.getKind_present hv, hT, setOutcome,
      typeMismatchMessage_ne_empty]

/-- Witness of C8: a READ of "missing" with declared type STRING on the empty
store fails with the key-not-found message. -/
theorem typed_read_response_witness :
    NewEmptyStore.values "missing" = none ∧
    ∃ r : Response,
      handleRequest NewEmptyStore (NewReadRequest "missing" STRING) = some (NewEmptyStore, r) ∧
      r.Success = false ∧ r.Error = keyNotFoundMessage "missing" ∧ r.Error ≠ "" :=
  ⟨rfl,
    match typed_read_response NewEmptyStore "missing" Kind.string Value.nil with
    | ⟨r, h, _, _, habs, _⟩ => ⟨r, h, habs rfl⟩⟩

/-- C9 as stated fails: on a store that holds the bool `true` at "a", the
response to an untyped READ of "a" has Value.Type = NONE, not BOOL. -/
theorem untyped_read_type_is_not_stored_type :
    NewEmptyStore.SetValue "a" (Value.bool true) =
      some (NewEmptyStore.holding "a" (Value.bool true), none) ∧
    (NewEmptyStore.holding "a" (Value.bool true)).values "a" = some (Value.bool true) ∧
    (Value.bool true).kind = some Kind.bool ∧
    ∃ r : Response,
      handleRequest (NewEmptyStore.holding "a" (Value.bool true)) (NewReadRequest "a" NONE) =
        some (NewEmptyStore.holding "a" (Value.bool true), r) ∧
      r.Value.map ValueHolder.Typ = some NONE ∧
      r.Value.map ValueHolder.Typ ≠ some Kind.bool.tag :=
  ⟨rfl, rfl, rfl,
    { Success := true, Error := "", Value := some { Typ := NONE, Val := Value.bool true } },
    rfl, rfl, by simp [NONE, Kind.tag, BOOL]⟩

/-- C9, amended: an untyped READ (declared type NONE) of a present key is
answered with Success = true, Error = "", Value.Type = NONE (the declared type
of the request, whatever is stored) and a payload that is the stored value, of
any runtime type, with no type check; the store is left as it is. -/
theorem untyped_read_response (s : Store) (k : String) (v : Value) (h : s.values k = some v) :
    handleRequest s (NewReadRequest k NONE) =
      some (s, { Success := true, Error := "", Value := some { Typ := NONE, Val := v } }) := by
  simp only [NewReadRequest]
  rw [handleRequest_read, readValue_eq]
  simp [Store.getDeclared_NONE, Store.GetValue_present h, setOutcome]

/-- Witness of C9 amended: the bool `true` stored at "a". -/
theorem untyped_read_response_witness :
    NewEmptyStore.SetValue "a" (Value.bool true) =
      some (NewEmptyStore.holding "a" (Value.bool true), none) ∧
    (NewEmptyStore.holding "a" (Value.bool true)).values "a" = some (Value.bool true) ∧
    handleRequest (NewEmptyStore.holding "a" (Value.bool true)) (NewReadRequest "a" NONE) =
      some (NewEmptyStore.holding "a" (Value.bool true),
        { Success := true, Error := "", Value := some { Typ := NONE, Val := Value.bool true } }) :=
  ⟨rfl, rfl, untyped_read_response (NewEmptyStore.holding "a" (Value.bool true)) "a"
    (Value.bool true) rfl⟩

/-- C10 as stated fails: after an untyped WRITE of "x" and then a WRITE of "y"
declared INT, both on "a", the key holds "x": the last WRITE was rejected by the
type check and its payload is not stored. -/
theorem last_write_rejected_keeps_previous :
    ∃ (s' : Store) (rs : List Response),
      serve NewEmptyStore
        [NewWriteRequest "a" NONE (Value.str "x"), NewWriteRequest "a" INT (Value.str "y")] =
        some (s', rs) ∧
      s'.values "a" = some (Value.str "x") ∧
      s'.values "a" ≠ some (Value.str "y") :=
  ⟨NewEmptyStore.holding "a" (Value.str "x"),
    [{ Success := true, Error := "", Value := none },
     { Success := false, Error := "The value for key 'a' is not of the correct type", Value := none }],
    rfl, rfl, by simp [Store.values_holding]⟩

/-- C10, amended: the control loop handles the requests one at a time in
arrival order, so for every initial store whose map is not nil, key `k` and
sequence of WRITE requests on `k`, every request is answered and the value at
`k` afterwards is the payload of the last WRITE of the sequence that the store
accepted (an untyped one, or a typed one whose payload has the declared
runtime type); `k` is as it started when none was accepted. In particular,
when the last WRITE of the sequence is accepted the value at `k` is its
payload. -/
theorem writes_last_accepted_wins (s : Store) (hmap : s.mapIsNil = false) (k : String)
    (ws : List (DType × Value)) :
    ∃ (s' : Store) (rs : List Response), serve s (writesOn k ws) = some (s', rs) ∧
      rs.length = ws.length ∧
      s'.values k = (match lastAccepted ws with
        | some v => some v
        | none => s.values k) ∧
      (∀ (t : DType) (v : Value), ws.getLast? = some (t, v) → accepts t v = true →
        s'.values k = some v) := by
  obtain ⟨s', rs, hs, hlen, hk, -⟩ := serve_writesOn k ws s hmap
  refine ⟨s', rs, hs, hlen, hk, ?_⟩
  intro t v hl ha
  rw [hk, lastAccepted_of_getLast? ws t v hl ha]

/-- Witness of C10 amended: two accepted writes on "a", the last one typed. -/
theorem writes_last_accepted_wins_witness :
    NewEmptyStore.mapIsNil = false ∧
    [(NONE, Value.str "x"), (INT, Value.int 7)].getLast? = some (INT, Value.int 7) ∧
    accepts INT (Value.int 7) = true ∧
    ∃ (s' : Store) (rs : List Response),
      serve NewEmptyStore (writesOn "a" [(NONE, Value.str "x"), (INT, Value.int 7)]) =
        some (s', rs) ∧
      s'.values "a" = some (Value.int 7) :=
  ⟨rfl, rfl, rfl,
    match writes_last_accepted_wins NewEmptyStore rfl "a"
      [(NONE, Value.str "x"), (INT, Value.int 7)] with
    | ⟨s', rs, hs, _, _, hlast⟩ => ⟨s', rs, hs, hlast INT (Value.int 7) rfl rfl⟩⟩

/-- C11: a stored value stays as it is until the next WRITE or DELETE on its
key. With `v` stored at `k`, every request that is not a WRITE or DELETE on
`k` (a READ of any key with any declared type, a WRITE or DELETE on another
key, a request of any other Op) is answered and leaves `v` at `k`; and a WRITE
on `k` that is rejected for its type is answered with Success = false and
leaves the whole store as it was. -/
theorem stored_value_stable (s : Store) (k : String) (v : Value) (h : s.values k = some v) :
    (∀ r : Request, (r.Value = none → r.Op ≠ READ ∧ r.Op ≠ WRITE) →
      ¬ ((r.Op = WRITE ∨ r.Op = DELETE) ∧ r.Key = k) →
      ∃ (s' : Store) (resp : Response), handleRequest s r = some (s', resp) ∧
        s'.values k = some v) ∧
    (∀ (t : DType) (payload : Value), accepts t payload = false →
      ∃ resp : Response, handleRequest s (NewWriteRequest k t payload) = some (s, resp) ∧
        resp.Success = false) := by
  constructor
  · intro r hwf hnot
    obtain ⟨op, key, vh⟩ := r
    simp only at hwf hnot
    by_cases hr : op = READ
    · subst hr
      cases vh with
      | none => exact absurd rfl (hwf rfl).1
      | some rv =>
        obtain ⟨t, payload⟩ := rv
        rw [handleRequest_read, readValue_eq]
        exact ⟨s, _, rfl, h⟩
    · by_cases hw : op = WRITE
      · subst hw
        have hkey : k ≠ key := fun hk => hnot ⟨Or.inl rfl, hk.symm⟩
        cases vh with
        | none => exact absurd rfl (hwf rfl).2
        | some rv =>
          obtain ⟨t, payload⟩ := rv
          have hh := handleRequest_write s (Store.mapIsNil_of_values h) key t payload
          simp only [NewWriteRequest] at hh
          rw [hh]
          by_cases ha : accepts t payload = true
          · rw [if_pos ha]
            exact ⟨_, _, rfl, by rw [Store.values_holding, if_neg hkey, h]⟩
          · rw [if_neg ha]
            exact ⟨_, _, rfl, h⟩
      · by_cases hd : op = DELETE
        · subst hd
          have hkey : k ≠ key := fun hk => hnot ⟨Or.inr rfl, hk.symm⟩
          refine ⟨s.DeleteKey key, { Success := true, Error := "", Value := none }, ?_, ?_⟩
          · simp [handleRequest, deleteKey, READ, WRITE, DELETE]
          · rw [Store.values_DeleteKey, if_neg hkey, h]
        · exact ⟨s, { Success := false, Error := "", Value := none },
            by simp [handleRequest, hr, hw, hd], h⟩
  · intro t payload ha
    refine ⟨{ Success := false, Error := typeMismatchMessage k, Value := none }, ?_, rfl⟩
    rw [handleRequest_write s (Store.mapIsNil_of_values h)]
    simp [ha]

/-- Witness of C11: the bool at "a" survives a READ of "a" declared INT. -/
theorem stored_value_stable_witness :
    NewEmptyStore.SetValue "a" (Value.bool true) =
      some (NewEmptyStore.holding "a" (Value.bool true), none) ∧
    (NewEmptyStore.holding "a" (Value.bool true)).values "a" = some (Value.bool true) ∧
    ∃ (s' : Store) (resp : Response),
      handleRequest (NewEmptyStore.holding "a" (Value.bool true)) (NewReadRequest "a" INT) =
        some (s', resp) ∧
      s'.values "a" = some (Value.bool true) :=
  ⟨rfl, rfl, (stored_value_stable (NewEmptyStore.holding "a" (Value.bool true)) "a"
    (Value.bool true) rfl).1 (NewReadRequest "a" INT)
    (fun hnone => by simp [NewReadRequest] at hnone)
    (fun hw => by simp [NewReadRequest, READ, WRITE, DELETE] at hw)⟩

/-- C12, at the failing input: with "old" stored at "a", the response to a
successful WRITE of "new" on "a" has a nil Value; it does not hold the
existing value "old" (nor any value). -/
theorem write_response_value_is_nil :
    NewEmptyStore.SetValue "a" (Value.str "old") =
      some (NewEmptyStore.holding "a" (Value.str "old"), none) ∧
    (NewEmptyStore.holding "a" (Value.str "old")).values "a" = some (Value.str "old") ∧
    ∃ (s' : Store) (resp : Response),
      handleRequest (NewEmptyStore.holding "a" (Value.str "old"))
        (NewWriteRequest "a" NONE (Value.str "new")) = some (s', resp) ∧
      resp.Success = true ∧ resp.Value = none ∧
      resp.Value.map ValueHolder.Val ≠ some (Value.str "old") :=
  ⟨rfl, rfl, (NewEmptyStore.holding "a" (Value.str "old")).holding "a" (Value.str "new"),
    { Success := true, Error := "", Value := none }, rfl, rfl, rfl, by simp⟩

/-- C16 as stated fails: for a Response with an empty Error and a nil Value,
such as the zero Response, a facade Get does not return `Response.Value.Val`
with no error: it returns nothing (the dereference of the nil Value
panics). -/
theorem facade_get_panics_on_nil_value :
    zeroResponsePeer.RequestChannel () (NewReadRequest "a" STRING) =
      some ((), { Success := false, Error := "", Value := none }) ∧
    waitForReadValue zeroResponsePeer () (NewReadRequest "a" STRING) = none ∧
    Sync.GetString zeroResponsePeer () "a" = none ∧
    Sync.GetValue zeroResponsePeer () "a" = none :=
  ⟨rfl, rfl, rfl, rfl⟩

/-- C16, amended: the facade turns a response into a call result by its Error
text alone. For a response `resp` received on the reply channel: a Get returns
nil and an error carrying `resp.Error` when that text is non-empty; when it is
empty and `resp.Value` is a holder, the Get returns the holder's `Val` with no
error; when it is empty and `resp.Value` is nil, the Get returns nothing (it
panics). A Get that returns reports an error exactly when `resp.Error` is
non-empty; a Set returns an error, carrying `resp.Error`, exactly when that
text is non-empty. The Success flag is not consulted: a response that differs
in Success only gives the same results. Each typed Get of the facade is this
conversion applied to the READ request of its type on the key, `GetValue` to
the READ request of type STRING, each typed Set to the WRITE request of its
type with the value, and `DeleteKey` to the DELETE request, its error
dropped. -/
theorem facade_result_from_error_text {σ : Type} (sync : Sync σ) (st st1 : σ)
    (request : Request) (resp : Response)
    (h : sync.RequestChannel st request = some (st1, resp)) :
    (resp.Error ≠ "" →
      waitForReadValue sync st request = some (st1, Value.nil, some resp.Error)) ∧
    (resp.Error = "" → ∀ holder : ValueHolder, resp.Value = some holder →
      waitForReadValue sync st request = some (st1, holder.Val, none)) ∧
    (resp.Error = "" → resp.Value = none → waitForReadValue sync st request = none) ∧
    (∀ res : σ × Value × GoError, waitForReadValue sync st request = some res →
      (res.2.2 ≠ none ↔ resp.Error ≠ "")) ∧
    (∃ err : GoError, waitForWriteValue sync st request = some (st1, err) ∧
      (err ≠ none ↔ resp.Error ≠ "") ∧ (resp.Error ≠ "" → err = some resp.Error)) ∧
    (∀ (sync2 : Sync σ) (b : Bool),
      sync2.RequestChannel st request = some (st1, { resp with Success := b }) →
      waitForReadValue sync2 st request = waitForReadValue sync st request ∧
      waitForWriteValue sync2 st request = waitForWriteValue sync st request) ∧
    (∀ (T : Kind) (key : String), Sync.getKind T sync st key =
      waitForReadValue sync st
        { Op := READ, Key := key, Value := some { Typ := T.tag, Val := Value.nil } }) ∧
    (∀ key : String, Sync.GetValue sync st key =
      waitForReadValue sync st
        { Op := READ, Key := key, Value := some { Typ := STRING, Val := Value.nil } }) ∧
    (∀ (T : Kind) (key : String) (value : Value), Sync.setKind T sync st key value =
      waitForWriteValue sync st
        { Op := WRITE, Key := key, Value := some { Typ := T.tag, Val := value } }) ∧
    (∀ key : String, Sync.DeleteKey sync st key =
      (waitForWriteValue sync st
        { Op := DELETE, Key := key, Value := some { Typ := NONE, Val := Value.nil } }).map
        Prod.fst) := by
  refine ⟨?_, ?_, ?_, ?_, ?_, ?_, ?_, ?_, ?_, ?_⟩
  · intro he
    simp [waitForReadValue, h, he]
  · intro he holder hv
    simp [waitForReadValue, h, he, hv]
  · intro he hv
    simp [waitForReadValue, h, he, hv]
  · intro res hres
    by_cases he : resp.Error = ""
    · cases hv : resp.Value with
      | none => simp [waitForReadValue, h, he, hv] at hres
      | some holder =>
        simp [waitForReadValue, h, he, hv] at hres
        simp [← hres, he]
    · simp [waitForReadValue, h, he] at hres
      simp [← hres, he]
  · by_cases he : resp.Error = ""
    · exact ⟨none, by simp [waitForWriteValue, h, he], by simp [he], fun hne => absurd he hne⟩
    · exact ⟨some resp.Error, by simp [waitForWriteValue, h, he], by simp [he], fun _ => rfl⟩
  · intro sync2 b h2
    constructor
    · simp [waitForReadValue, h, h2]
    · simp [waitForWriteValue, h, h2]
  · intro T key
    cases T <;> rfl
  · intro key
    rfl
  · intro T key value
    cases T <;> rfl
  · intro key
    rfl

/-- Witness of C16 amended: `GetString` of a missing key, answered by the
dispatcher. -/
theorem facade_result_from_error_text_witness :
    Service.sync.RequestChannel NewEmptyStore (NewReadRequest "missing" STRING) =
      some (NewEmptyStore,
        { Success := false,
          Error := "The key 'missing' specified does not exist",
          Value := some { Typ := STRING, Val := Value.nil } }) ∧
    Sync.GetString Service.sync NewEmptyStore "missing" =
      some (NewEmptyStore, Value.nil, some "The key 'missing' specified does not exist") :=
  ⟨rfl, (facade_result_from_error_text Service.sync NewEmptyStore NewEmptyStore
    (NewReadRequest "missing" STRING)
    { Success := false,
      Error := "The key 'missing' specified does not exist",
      Value := some { Typ := STRING, Val := Value.nil } } rfl).1 (by decide)⟩

/-- C17, at the failing input: after `Sync.SetInt("n", 5)` the store holds the
int 5 at "n", and `Sync.GetValue("n")`, answered by the dispatcher, returns nil
and the type-mismatch error instead of the stored 5. -/
theorem facade_GetValue_fails_on_stored_int :
    Sync.SetInt Service.sync NewEmptyStore "n" (Value.int 5) =
      some (NewEmptyStore.holding "n" (Value.int 5), none) ∧
    (NewEmptyStore.holding "n" (Value.int 5)).values "n" = some (Value.int 5) ∧
    (NewEmptyStore.holding "n" (Value.int 5)).GetValue "n" = (Value.int 5, none) ∧
    Sync.GetValue Service.sync (NewEmptyStore.holding "n" (Value.int 5)) "n" =
      some (NewEmptyStore.holding "n" (Value.int 5), Value.nil,
        some "The value for key 'n' is not of the correct type") :=
  ⟨rfl, rfl, rfl, rfl⟩

/-- C18 as stated fails: `true` is restored by JSON decoding from its own
encoding, but on the store that loaded a file holding `null` the map is nil and
`Sync.SetValue("flag", true)` does not succeed: the WRITE it issues panics in
the dispatcher and nothing is returned. -/
theorem facade_SetValue_panics_on_nil_map :
    boolCodec.Marshal (Value.bool true) = some "true" ∧
    boolCodec.Unmarshal "true" (Value.bool false) = (Value.bool true, none) ∧
    nullFileStore.mapIsNil = true ∧
    Sync.SetValue boolCodec Service.sync nullFileStore "flag" (Value.bool true) = none :=
  ⟨rfl, rfl, rfl, rfl⟩

/-- C18, amended: `Sync.SetValue(k, v)` issues the WRITE request of declared
type STRING whose payload is the JSON text of `v`, and `Sync.GetValueType(k, x)`
issues the READ request of declared type STRING and decodes the returned text
into `x`. So when `Marshal` gives `text` for `v` and `Unmarshal` of `text` into
`x` gives back `v`, on every store whose map is not nil `SetValue(k, v)`
succeeds, leaving the string `text` at `k`, and `GetValueType(k, x)` then
succeeds and leaves `x` equal to `v`. -/
theorem facade_SetValue_GetValueType_roundtrip (codec : JSONCodec) (s : Store)
    (hmap : s.mapIsNil = false) (k : String)
    (v x : Value) (text : String) (hm : codec.Marshal v = some text)
    (hu : codec.Unmarshal text x = (v, none)) :
    (∀ (σ : Type) (sync : Sync σ) (st : σ), Sync.SetValue codec sync st k v =
      waitForWriteValue sync st
        { Op := WRITE, Key := k, Value := some { Typ := STRING, Val := Value.str text } }) ∧
    (∀ (σ : Type) (sync : Sync σ) (st st1 : σ) (b : Bool) (t : DType) (got : String),
      sync.RequestChannel st
          { Op := READ, Key := k, Value := some { Typ := STRING, Val := Value.nil } } =
        some (st1, { Success := b, Error := "", Value := some { Typ := t, Val := Value.str got } }) →
      Sync.GetValueType codec sync st k x = some (st1, codec.Unmarshal got x)) ∧
    Sync.SetValue codec Service.sync s k v = some (s.holding k (Value.str text), none) ∧
    (s.holding k (Value.str text)).values k = some (Value.str text) ∧
    Sync.GetValueType codec Service.sync (s.holding k (Value.str text)) k x =
      some (s.holding k (Value.str text), v, none) := by
  have hacc : accepts STRING (Value.str text) = true := by
    simp [accepts, Kind.ofTag?, STRING, BOOL, INT, FLOAT, Value.kind]
  have hval : (s.holding k (Value.str text)).values k = some (Value.str text) := by
    simp [Store.values_holding]
  have hget : ∀ (σ : Type) (sync : Sync σ) (st st1 : σ) (b : Bool) (t : DType) (got : String),
      sync.RequestChannel st (NewReadRequest k STRING) =
        some (st1, { Success := b, Error := "", Value := some { Typ := t, Val := Value.str got } }) →
      Sync.GetValueType codec sync st k x = some (st1, codec.Unmarshal got x) := by
    intro σ sync st st1 b t got h
    simp [Sync.GetValueType, Sync.GetString, waitForReadValue, h]
  refine ⟨?_, hget, ?_, hval, ?_⟩
  · intro σ sync st
    simp [Sync.SetValue, Sync.SetString, hm, NewWriteRequest]
  · simp only [Sync.SetValue, Sync.SetString, hm, Option.getD_some, waitForWriteValue,
      Service.sync, handleRequest_write s hmap, if_pos hacc]
    simp
  · rw [hget Store Service.sync (s.holding k (Value.str text)) (s.holding k (Value.str text))
      true STRING text, hu]
    simp only [Service.sync, NewReadRequest]
    rw [handleRequest_read, readValue_eq]
    have hs : STRING = Kind.string.tag := rfl
    rw [hs, Store.getDeclared_tag, Store.getKind_present hval]
    simp [Value.kind, setOutcome]

/-- Witness of C18 amended: `SetValue("flag", true)` on the empty store leaves
the text `true` at "flag", and `GetValueType("flag", x)` with `x` holding
`false` leaves `true` in `x`. -/
theorem facade_SetValue_GetValueType_roundtrip_witness :
    NewEmptyStore.mapIsNil = false ∧
    boolCodec.Marshal (Value.bool true) = some "true" ∧
    boolCodec.Unmarshal "true" (Value.bool false) = (Value.bool true, none) ∧
    boolCodec.Unmarshal "false" (Value.bool false) = (Value.bool false, none) ∧
    Sync.SetValue boolCodec Service.sync NewEmptyStore "flag" (Value.bool true) =
      some (NewEmptyStore.holding "flag" (Value.str "true"), none) ∧
    Sync.GetValueType boolCodec Service.sync
      (NewEmptyStore.holding "flag" (Value.str "true")) "flag" (Value.bool false) =
      some (NewEmptyStore.holding "flag" (Value.str "true"), Value.bool true, none) :=
  ⟨rfl, rfl, rfl, rfl,
    (facade_SetValue_GetValueType_roundtrip boolCodec NewEmptyStore rfl "flag"
      (Value.bool true) (Value.bool false) "true" rfl rfl).2.2.1,
    (facade_SetValue_GetValueType_roundtrip boolCodec NewEmptyStore rfl "flag"
      (Value.bool true) (Value.bool false) "true" rfl rfl).2.2.2.2⟩

/-- C13, at failing inputs: `ReadFromDisk` returns nil although the file of a
store with a path cannot be opened, and `SaveToDisk` returns nil although the
map holds a NaN that cannot be encoded, and also although the file cannot be
created. -/
theorem load_save_failures_return_nil :
    (NewStoreFromFile "missing.json").filePath ≠ "" ∧
    (∃ msg, Disk.blank.openFile "missing.json" = Except.error msg) ∧
    ((NewStoreFromFile "missing.json").ReadFromDisk Disk.blank).2.1 = none ∧
    (NewStoreFromFile "store.json").SetValue "x" (Value.float 9221120237041090560) =
      some ((NewStoreFromFile "store.json").holding "x" (Value.float 9221120237041090560), none) ∧
    marshalMap (fun _ _ => none)
      ((NewStoreFromFile "store.json").holding "x" (Value.float 9221120237041090560)).values
      ["x"] = none ∧
    (((NewStoreFromFile "store.json").holding "x" (Value.float 9221120237041090560)).SaveToDisk
      (fun _ _ => none) ["x"] Disk.blank).2.1 = none ∧
    (∃ msg, Disk.create { Disk.blank with creatable := fun _ => false } "store.json" =
      Except.error msg) ∧
    (((NewStoreFromFile "store.json").holding "x" (Value.bool true)).SaveToDisk
      (fun _ _ => none) ["x"] { Disk.blank with creatable := fun _ => false }).2.1 = none :=
  ⟨by decide, ⟨_, rfl⟩, rfl, rfl, rfl, rfl, ⟨_, rfl⟩, rfl⟩

/-- C14: with an empty file path, as in the store of `NewEmptyStore` and of
`NewService("")`, `ReadFromDisk` and `SaveToDisk` perform no file operation and
return nil; the store (map and path) and the file system are left as they
were, whatever the store holds. -/
theorem load_save_noop_without_path (enc : String → String → Option Json)
    (keys : List String) (s : Store) (d : Disk) (h : s.filePath = "") :
    s.ReadFromDisk d = (s, none, []) ∧
    s.SaveToDisk enc keys d = (d, none, []) ∧
    NewEmptyStore.filePath = "" ∧
    (NewService "").store.filePath = "" := by
  refine ⟨?_, ?_, rfl, rfl⟩
  · simp [Store.ReadFromDisk, h]
  · simp [Store.SaveToDisk, h]

/-- Witness of C14: the empty store after a value was set in it. -/
theorem load_save_noop_without_path_witness :
    NewEmptyStore.SetValue "a" (Value.int 1) =
      some (NewEmptyStore.holding "a" (Value.int 1), none) ∧
    (NewEmptyStore.holding "a" (Value.int 1)).filePath = "" ∧
    (NewEmptyStore.holding "a" (Value.int 1)).ReadFromDisk Disk.blank =
      (NewEmptyStore.holding "a" (Value.int 1), none, []) :=
  ⟨rfl, rfl, (load_save_noop_without_path (fun _ _ => none) ["a"]
    (NewEmptyStore.holding "a" (Value.int 1)) Disk.blank rfl).1⟩

/-- C15 as stated fails: a store holds the int 1 at "a", so `GetInt("a")`
succeeds; after `SaveToDisk` and `ReadFromDisk` of that file into a fresh
store, "a" holds the float64 1 (bits 0x3FF0000000000000), the maps differ and
`GetInt("a")` fails with the type-mismatch error. -/
theorem int_comes_back_as_float :
    (NewStoreFromFile "store.json").SetInt "a" (Value.int 1) =
      some ((NewStoreFromFile "store.json").holding "a" (Value.int 1), none) ∧
    ((NewStoreFromFile "store.json").holding "a" (Value.int 1)).GetInt "a" =
      (Value.int 1, none) ∧
    ((NewStoreFromFile "store.json").ReadFromDisk
      (((NewStoreFromFile "store.json").holding "a" (Value.int 1)).SaveToDisk
        (fun _ _ => none) ["a"] Disk.blank).1).1.values "a" =
      some (Value.float 4607182418800017408) ∧
    ((NewStoreFromFile "store.json").ReadFromDisk
      (((NewStoreFromFile "store.json").holding "a" (Value.int 1)).SaveToDisk
        (fun _ _ => none) ["a"] Disk.blank).1).1.values "a" ≠
      ((NewStoreFromFile "store.json").holding "a" (Value.int 1)).values "a" ∧
    ((NewStoreFromFile "store.json").ReadFromDisk
      (((NewStoreFromFile "store.json").holding "a" (Value.int 1)).SaveToDisk
        (fun _ _ => none) ["a"] Disk.blank).1).1.GetInt "a" =
      (Value.int 0, some "The value for key 'a' is not of the correct type") := by
  have hload : ((NewStoreFromFile "store.json").ReadFromDisk
      (((NewStoreFromFile "store.json").holding "a" (Value.int 1)).SaveToDisk
        (fun _ _ => none) ["a"] Disk.blank).1).1.values "a" =
      some (Value.float 4607182418800017408) := by
    rfl
  refine ⟨rfl, rfl, hload, ?_, ?_⟩
  · rw [hload]
    simp [Store.values_holding]
  · simp [Store.GetInt, Store.getAsserted, Store.GetValue, hload, assertInt, generateTypeError,
      generateError]

/-- C15, amended: when every value of the map is nil, a bool, a finite
float64, a string of valid UTF-8, or a non-nil slice or map of such values
(the keys, of the map and inside the values, being valid UTF-8 as well), and
the file can be created and written, `SaveToDisk` followed by `ReadFromDisk`
of that file into a fresh store gives a store equal to the original: same
entries, key for key and value for value, so every accessor returns what it
returned before. -/
theorem save_then_load_restores_stable_values (enc : String → String → Option Json)
    (keys : List String) (s : Store) (d : Disk) (hp : s.filePath ≠ "")
    (hc : d.creatable s.filePath = true) (hw : d.writable s.filePath = true)
    (hk : ∀ k v, s.values k = some v → k ∈ keys ∧ v.jsonStable = true) :
    ((NewStoreFromFile s.filePath).ReadFromDisk (s.SaveToDisk enc keys d).1).1 = s ∧
    (∀ k, ((NewStoreFromFile s.filePath).ReadFromDisk (s.SaveToDisk enc keys d).1).1.values k =
      s.values k) ∧
    (∀ (T : Kind) (k : String),
      ((NewStoreFromFile s.filePath).ReadFromDisk (s.SaveToDisk enc keys d).1).1.getKind T k =
        s.getKind T k) := by
  have hload : ((NewStoreFromFile s.filePath).ReadFromDisk (s.SaveToDisk enc keys d).1).1 = s := by
    obtain ⟨path, table⟩ := s
    simp only at hp hc hw
    cases table with
    | none =>
      have hsave : (Store.SaveToDisk enc keys { filePath := path, table := none } d).1.node path =
          some (Node.file (FileText.document Json.null)) := by
        simp [Store.SaveToDisk, hp, marshalTable, Disk.create, hc, Disk.writeTo, hw]
      simp only [Store.ReadFromDisk, NewStoreFromFile]
      rw [if_pos hp]
      simp [Disk.openFile, hsave, Node.readFrom, unmarshalMap]
    | some m =>
      have hst : ∀ k v, m k = some v → v.jsonStable = true := fun k v h => (hk k v h).2
      obtain ⟨members, hm, hs⟩ := marshalMap_storeMembers enc m hst keys
      have hsave : (Store.SaveToDisk enc keys { filePath := path, table := some m } d).1.node path =
          some (Node.file (FileText.document (Json.object members))) := by
        simp [Store.SaveToDisk, hp, marshalTable, hm, Disk.create, hc, Disk.writeTo, hw]
      simp only [Store.ReadFromDisk, NewStoreFromFile]
      rw [if_pos hp]
      simp only [Disk.openFile, hsave, Node.readFrom, unmarshalMap]
      have hfun : storeMembers members (fun _ => none) = m := by
        funext k
        rw [hs]
        cases hv : m k with
        | none => simp
        | some v =>
          have hmem : k ∈ keys := (hk k v hv).1
          simp [hmem]
      rw [hfun]
  exact ⟨hload, fun k => by rw [hload], fun T k => by rw [hload]⟩

/-- Witness of C15 amended: the store of "store.json" holding the string "1" at
"a" is saved and loaded back, and `GetString("a")` returns "1" as before. -/
theorem save_then_load_restores_stable_values_witness :
    (NewStoreFromFile "store.json").SetValue "a" (Value.str "1") =
      some ((NewStoreFromFile "store.json").holding "a" (Value.str "1"), none) ∧
    ((NewStoreFromFile "store.json").holding "a" (Value.str "1")).values "a" =
      some (Value.str "1") ∧
    ((NewStoreFromFile "store.json").holding "a" (Value.str "1")).filePath ≠ "" ∧
    Disk.blank.creatable "store.json" = true ∧
    Disk.blank.writable "store.json" = true ∧
    (((NewStoreFromFile "store.json").holding "a" (Value.str "1")).SaveToDisk
      (fun _ _ => none) ["a"] Disk.blank).1.node "store.json" =
      some (Node.file (FileText.document (Json.object [("a", Json.str "1")]))) ∧
    ((NewStoreFromFile "store.json").ReadFromDisk
      (((NewStoreFromFile "store.json").holding "a" (Value.str "1")).SaveToDisk
        (fun _ _ => none) ["a"] Disk.blank).1).1 =
      (NewStoreFromFile "store.json").holding "a" (Value.str "1") :=
  ⟨rfl, rfl, by decide, rfl, rfl, rfl,
    (save_then_load_restores_stable_values (fun _ _ => none) ["a"]
      ((NewStoreFromFile "store.json").holding "a" (Value.str "1"))
      Disk.blank (by decide) rfl rfl
      (fun k v h => by
        rw [Store.values_holding] at h
        by_cases hka : k = "a"
        · rw [if_pos hka] at h
          rw [← Option.some.inj h]
          exact ⟨by simp [hka], rfl⟩
        · rw [if_neg hka] at h
          simp [NewStoreFromFile, Store.values] at h)).1⟩

/-- C19 as stated fails: a Response received from the dispatcher is not always
returned with status 200. With a float64 NaN stored at "x", the dispatcher
answers `GET /x` with a successful Response that carries the NaN;
`json.Marshal` fails on it and the handler replies with status 500 and the
error text. -/
theorem nan_response_is_answered_500 :
    NewEmptyStore.SetFloat "x" (Value.float 9221120237041090560) =
      some (NewEmptyStore.holding "x" (Value.float 9221120237041090560), none) ∧
    isNaNOrInf 9221120237041090560 = true ∧
    handleRequest (NewEmptyStore.holding "x" (Value.float 9221120237041090560))
      (NewReadRequest "x" NONE) =
      some (NewEmptyStore.holding "x" (Value.float 9221120237041090560),
        { Success := true, Error := "",
          Value := some { Typ := NONE, Val := Value.float 9221120237041090560 } }) ∧
    marshalResponse (fun _ _ => none)
      { Success := true, Error := "",
        Value := some { Typ := NONE, Val := Value.float 9221120237041090560 } } = none ∧
    operationHandler (fun _ => none)
      (encodeResponse (fun _ _ => none) (fun _ => "") (fun _ => "json: unsupported value: NaN"))
      (NewEmptyStore.holding "x" (Value.float 9221120237041090560))
      { Method := "GET", Path := "/x", Body := [] } =
      some (NewEmptyStore.holding "x" (Value.float 9221120237041090560),
        { Status := 500, ContentType := "text/plain; charset=utf-8",
          Body := "json: unsupported value: NaN\n" }) :=
  ⟨rfl, rfl, rfl, rfl, rfl⟩

/-- C19, amended: the handler routes by path and method. The key is the path
without its leading `/`. With an empty key the exchange is answered 404 and
nothing is sent on the request channel, whatever the method, and the store is
untouched. Otherwise GET sends the request of Op READ for the key with a
holder of type NONE, answered with the result of the untyped `GetValue`; POST
with a body that decodes sends the request of Op WRITE for the key with a
holder of type NONE and the decoded body as payload, which on a store whose
map is not nil stores the payload; and DELETE sends the request of Op DELETE
for the key, which deletes the key. A response received from the dispatcher is
written with status 200 and its JSON encoding when `json.Marshal` encodes it,
and with status 500 and the error text when it does not; this is what the
handler returns when the dispatcher answers. -/
theorem text_transport_routing (decode : List UInt8 → Option Value)
    (encode : Response → Except String String) (r : HttpRequest) (hpath : r.Path ≠ "") :
    (∀ k : String, pathKey ("/" ++ k) = k) ∧
    (pathKey r.Path = "" →
      routeRequest decode r =
        some (Routed.replied { Status := 404, ContentType := "", Body := "" }) ∧
      ∀ store : Store, operationHandler decode encode store r =
        some (store, { Status := 404, ContentType := "", Body := "" })) ∧
    (pathKey r.Path ≠ "" → r.Method = "GET" →
      routeRequest decode r =
        some (Routed.sent (some
          { Op := READ, Key := pathKey r.Path,
            Value := some { Typ := NONE, Val := Value.nil } })) ∧
      ∀ store : Store, operationHandler decode encode store r =
        some (store, finishExchange encode (some (setOutcome
          { Success := false, Error := "",
            Value := some { Typ := NONE, Val := (store.GetValue (pathKey r.Path)).1 } }
          (store.GetValue (pathKey r.Path)).2)))) ∧
    (pathKey r.Path ≠ "" → r.Method = "POST" → ∀ content : Value,
      decode (limitReader r.Body MaxRequestLength) = some content →
      routeRequest decode r =
        some (Routed.sent (some
          { Op := WRITE, Key := pathKey r.Path,
            Value := some { Typ := NONE, Val := content } })) ∧
      ∀ store : Store, store.mapIsNil = false →
        operationHandler decode encode store r =
          some (store.holding (pathKey r.Path) content,
            finishExchange encode (some { Success := true, Error := "", Value := none }))) ∧
    (pathKey r.Path ≠ "" → r.Method = "DELETE" →
      routeRequest decode r =
        some (Routed.sent (some
          { Op := DELETE, Key := pathKey r.Path,
            Value := some { Typ := NONE, Val := Value.nil } })) ∧
      ∀ store : Store, operationHandler decode encode store r =
        some (store.DeleteKey (pathKey r.Path),
          finishExchange encode (some { Success := true, Error := "", Value := none }))) ∧
    (∀ (response : Response) (content : String), encode response = Except.ok content →
      finishExchange encode (some response) =
        { Status := 200, ContentType := "application/json; charset=UTF-8", Body := content }) ∧
    (∀ (response : Response) (msg : String), encode response = Except.error msg →
      finishExchange encode (some response) =
        { Status := 500, ContentType := "text/plain; charset=utf-8", Body := msg ++ "\n" }) ∧
    (∀ (store store1 : Store) (request : Request) (response : Response),
      routeRequest decode r = some (Routed.sent (some request)) →
      handleRequest store request = some (store1, response) →
      operationHandler decode encode store r =
        some (store1, finishExchange encode (some response))) := by
  have hacc : ∀ content : Value, accepts NONE content = true := by
    intro content
    simp [accepts, Kind.ofTag?, NONE, BOOL, INT, FLOAT, STRING, ARRAY, MAP]
  refine ⟨?_, ?_, ?_, ?_, ?_, ?_, ?_, ?_⟩
  · intro k
    simp [pathKey, String.data_append]
  · intro hk
    have hr : routeRequest decode r =
        some (Routed.replied { Status := 404, ContentType := "", Body := "" }) := by
      simp [routeRequest, hpath, hk]
    exact ⟨hr, fun store => by simp [operationHandler, hr]⟩
  · intro hk hm
    have hr : routeRequest decode r = some (Routed.sent (some
        { Op := READ, Key := pathKey r.Path,
          Value := some { Typ := NONE, Val := Value.nil } })) := by
      simp [routeRequest, hpath, hk, hm, NewReadRequest]
    refine ⟨hr, fun store => ?_⟩
    simp only [operationHandler, hr]
    rw [handleRequest_read, readValue_eq]
    simp [Store.getDeclared_NONE]
  · intro hk hm content hd
    have hr : routeRequest decode r = some (Routed.sent (some
        { Op := WRITE, Key := pathKey r.Path,
          Value := some { Typ := NONE, Val := content } })) := by
      simp [routeRequest, hpath, hk, hm, hd, NewWriteRequest]
    refine ⟨hr, fun store hmap => ?_⟩
    have hw := handleRequest_write store hmap (pathKey r.Path) NONE content
    simp only [NewWriteRequest] at hw
    simp only [operationHandler, hr, hw, if_pos (hacc content)]
  · intro hk hm
    have hr : routeRequest decode r = some (Routed.sent (some
        { Op := DELETE, Key := pathKey r.Path,
          Value := some { Typ := NONE, Val := Value.nil } })) := by
      simp [routeRequest, hpath, hk, hm, NewDeleteRequest]
    refine ⟨hr, fun store => ?_⟩
    simp [operationHandler, hr, handleRequest, deleteKey, READ, WRITE, DELETE]
  · intro response content he
    simp [finishExchange, he]
  · intro response msg he
    simp [finishExchange, he]
  · intro store store1 request response hr hh
    simp [operationHandler, hr, hh]

/-- Witness of C19 amended: `GET /a` on a store that holds "1" at "a". -/
theorem text_transport_routing_witness :
    ({ Method := "GET", Path := "/a", Body := [] } : HttpRequest).Path ≠ "" ∧
    pathKey "/a" = "a" ∧
    routeRequest (fun _ => none) { Method := "GET", Path := "/a", Body := [] } =
      some (Routed.sent (some
        { Op := READ, Key := "a", Value := some { Typ := NONE, Val := Value.nil } })) ∧
    operationHandler (fun _ => none)
      (encodeResponse (fun _ _ => none) (fun _ => "") (fun _ => ""))
      (NewEmptyStore.holding "a" (Value.str "1"))
      { Method := "GET", Path := "/a", Body := [] } =
      some (NewEmptyStore.holding "a" (Value.str "1"),
        finishExchange (encodeResponse (fun _ _ => none) (fun _ => "") (fun _ => ""))
          (some { Success := true, Error := "",
                  Value := some { Typ := NONE, Val := Value.str "1" } })) :=
  ⟨by decide, rfl,
    ((text_transport_routing (fun _ => none)
      (encodeResponse (fun _ _ => none) (fun _ => "") (fun _ => ""))
      { Method := "GET", Path := "/a", Body := [] } (by decide)).2.2.1 (by decide) rfl).1,
    ((text_transport_routing (fun _ => none)
      (encodeResponse (fun _ _ => none) (fun _ => "") (fun _ => ""))
      { Method := "GET", Path := "/a", Body := [] } (by decide)).2.2.1 (by decide) rfl).2
      (NewEmptyStore.holding "a" (Value.str "1"))⟩

/-- C20 as stated fails: a POST to `/a` whose body is `true` followed by 1024
spaces is 1028 bytes long, yet it is not rejected: the decoder is given the
first 1024 bytes, which hold a complete JSON value, and the WRITE request for
"a" with the payload `true` is sent to the dispatcher. -/
theorem long_body_with_short_value_is_accepted :
    ([116, 114, 117, 101] ++ List.replicate 1024 (32 : UInt8)).length = 1028 ∧
    MaxRequestLength < ([116, 114, 117, 101] ++ List.replicate 1024 (32 : UInt8)).length ∧
    routeRequest decodeTrueLiteral
      { Method := "POST", Path := "/a",
        Body := [116, 114, 117, 101] ++ List.replicate 1024 (32 : UInt8) } =
      some (Routed.sent (some (NewWriteRequest "a" NONE (Value.bool true)))) := by
  have hlen : ([116, 114, 117, 101] ++ List.replicate 1024 (32 : UInt8)).length = 1028 := by
    simp only [List.length_append, List.length_replicate, List.length_cons, List.length_nil]
  have hlim : List.take 1024 ([116, 114, 117, 101] ++ List.replicate 1024 (32 : UInt8)) =
      [116, 114, 117, 101] ++ List.replicate 1020 (32 : UInt8) := by
    have h := @List.take_append UInt8 [116, 114, 117, 101] (List.replicate 1024 (32 : UInt8)) 1020
    rw [List.take_replicate] at h
    exact h
  have htake : ∀ l : List UInt8, (116 :: 114 :: 117 :: 101 :: l).take 4 = [116, 114, 117, 101] :=
    fun _ => rfl
  have hdrop : ∀ l : List UInt8, (116 :: 114 :: 117 :: 101 :: l).drop 4 = l := fun _ => rfl
  have hall : (List.replicate 1020 (32 : UInt8)).all (fun b => decide (b = 32)) = true := by
    rw [List.all_eq_true]
    intro x hx
    rw [List.eq_of_mem_replicate hx]
    rfl
  have hdec : decodeTrueLiteral ([116, 114, 117, 101] ++ List.replicate 1020 (32 : UInt8)) =
      some (Value.bool true) := by
    simp only [decodeTrueLiteral, List.cons_append, List.nil_append, htake, hdrop, hall,
      and_self, if_true]
  have hkey : pathKey "/a" = "a" := by decide
  have hp : ("/a" : String) ≠ "" := by decide
  have hk : pathKey "/a" ≠ "" := by rw [hkey]; decide
  refine ⟨hlen, by rw [hlen]; norm_num [MaxRequestLength], ?_⟩
  have h := routeRequest_post_some decodeTrueLiteral "/a"
    ([116, 114, 117, 101] ++ List.replicate 1024 (32 : UInt8)) (Value.bool true) hp hk
    (by rw [hlim]; exact hdec)
  rw [hkey] at h
  exact h

/-- C20, amended: for every POST to a non-empty key the handler gives the
decoder the first 1024 bytes of the body only (the whole body when it is no
longer than that). The exchange is rejected with status 400, and no request is
sent, exactly when no JSON value decodes from those bytes; otherwise the WRITE
request with the decoded value is sent, however long the body is. What follows
the first 1024 bytes plays no part. -/
theorem post_reads_first_1024_bytes (decode : List UInt8 → Option Value) (r : HttpRequest)
    (hpath : r.Path ≠ "") (hkey : pathKey r.Path ≠ "") (hm : r.Method = "POST") :
    (routeRequest decode r =
      match decode (r.Body.take 1024) with
      | none =>
        some (Routed.replied
          { Status := 400, ContentType := "application/json; charset=UTF-8", Body := "" })
      | some content =>
        some (Routed.sent (some (NewWriteRequest (pathKey r.Path) NONE content)))) ∧
    (routeRequest decode r =
        some (Routed.replied
          { Status := 400, ContentType := "application/json; charset=UTF-8", Body := "" }) ↔
      decode (r.Body.take 1024) = none) ∧
    (r.Body.length ≤ 1024 → r.Body.take 1024 = r.Body) ∧
    (∀ body : List UInt8, body.take 1024 = r.Body.take 1024 →
      routeRequest decode { r with Body := body } = routeRequest decode r) := by
  have hr := routeRequest_post decode r hpath hkey hm
  refine ⟨hr, ?_, ?_, ?_⟩
  · rw [hr]
    cases decode (r.Body.take 1024) <;> simp
  · intro hlen
    exact List.take_of_length_le hlen
  · intro body hb
    simp only [routeRequest, if_neg hpath, if_neg hkey, if_pos hm, limitReader, MaxRequestLength,
      hb]

/-- Witness of C20 amended: a POST to `/a` with an empty body, from which
nothing decodes. -/
theorem post_reads_first_1024_bytes_witness :
    ({ Method := "POST", Path := "/a", Body := [] } : HttpRequest).Path ≠ "" ∧
    pathKey ({ Method := "POST", Path := "/a", Body := [] } : HttpRequest).Path ≠ "" ∧
    routeRequest (fun _ => none) { Method := "POST", Path := "/a", Body := [] } =
      some (Routed.replied
        { Status := 400, ContentType := "application/json; charset=UTF-8", Body := "" }) :=
  ⟨by decide, by decide,
    (post_reads_first_1024_bytes (fun _ => none) { Method := "POST", Path := "/a", Body := [] }
      (by decide) (by decide) rfl).2.1.mpr rfl⟩

/-- C21: shutdown is terminal. When the running control loop receives the
shutdown event it calls `SaveToDisk` once, sends the completion acknowledgment
once and returns, whatever `SaveToDisk` did (no error stops it), and whatever
is queued after the event: the store and the responses sent are those of before
the event, and the outcome is that of the shutdown event alone. Once the loop
has returned, no event is processed: the whole state, the store included,
stays as it is. -/
theorem shutdown_is_terminal (enc : String → String → Option Json)
    (keysOf : Store → List String) (l : Loop) (queued : List Event) :
    (l.stopped = false →
      ∃ l1 : Loop, Loop.run enc keysOf l (Event.quit :: queued) = some l1 ∧
        l1.saves = l.saves + 1 ∧ l1.acks = l.acks + 1 ∧ l1.stopped = true ∧
        l1.store = l.store ∧ l1.replies = l.replies ∧
        l1.disk = (l.store.SaveToDisk enc (keysOf l.store) l.disk).1 ∧
        Loop.run enc keysOf l [Event.quit] = some l1) ∧
    (l.stopped = true → Loop.run enc keysOf l queued = some l) := by
  constructor
  · intro h
    have hstep : ∃ l1 : Loop, Loop.step enc keysOf l Event.quit = some l1 ∧
        l1.saves = l.saves + 1 ∧ l1.acks = l.acks + 1 ∧ l1.stopped = true ∧
        l1.store = l.store ∧ l1.replies = l.replies ∧
        l1.disk = (l.store.SaveToDisk enc (keysOf l.store) l.disk).1 := by
      simp [Loop.step, h]
    obtain ⟨l1, hs, h1, h2, h3, h4, h5, h6⟩ := hstep
    refine ⟨l1, ?_, h1, h2, h3, h4, h5, h6, ?_⟩
    · simp only [Loop.run, hs]
      exact Loop.run_stopped enc keysOf l1 h3 queued
    · simp only [Loop.run, hs]
  · intro h
    exact Loop.run_stopped enc keysOf l h queued

/-- Witness of C21: a service started with no file path is stopped while a
WRITE is still queued; the store stays empty. -/
theorem shutdown_is_terminal_witness :
    (Service.Start (NewService "") Disk.blank).stopped = false ∧
    ∃ l1 : Loop,
      Loop.run (fun _ _ => none) (fun _ => []) (Service.Start (NewService "") Disk.blank)
        [Event.quit, Event.request (some (NewWriteRequest "a" NONE (Value.str "1")))] = some l1 ∧
      l1.saves = 1 ∧ l1.acks = 1 ∧ l1.stopped = true ∧
      l1.store = (Service.Start (NewService "") Disk.blank).store :=
  ⟨rfl,
    match (shutdown_is_terminal (fun _ _ => none) (fun _ => [])
      (Service.Start (NewService "") Disk.blank)
      [Event.request (some (NewWriteRequest "a" NONE (Value.str "1")))]).1 rfl with
    | ⟨l1, hrun, hs, ha, hst, hstore, _, _, _⟩ => ⟨l1, hrun, hs, ha, hst, hstore⟩⟩

/-- C23 as stated fails: a request with Op = 3 (READ and WRITE combined)
matches no case of the switch, and the control loop still sends a Response on
that request's reply channel. -/
theorem unmatched_op_is_answered :
    ((3 : Op) ≠ READ ∧ (3 : Op) ≠ WRITE ∧ (3 : Op) ≠ DELETE) ∧
    (Loop.run (fun _ _ => none) (fun _ => []) (Service.Start (NewService "") Disk.blank)
      [Event.request (some { Op := 3, Key := "a", Value := some { Typ := NONE, Val := Value.nil } })]
      ).map Loop.replies =
      some [({ Op := 3, Key := "a", Value := some { Typ := NONE, Val := Value.nil } },
        { Success := false, Error := "", Value := none })] :=
  ⟨by decide, rfl⟩

/-- C23, amended: a request whose Op is none of READ, WRITE, DELETE leaves the
store unchanged, and the dispatcher sends one Response on that request's reply
channel: the zero Response, with Success = false, an empty Error and a nil
Value. -/
theorem unmatched_op_store_unchanged (s : Store) (op : Op) (k : String)
    (vh : Option ValueHolder) (h1 : op ≠ READ) (h2 : op ≠ WRITE) (h3 : op ≠ DELETE) :
    handleRequest s { Op := op, Key := k, Value := vh } =
      some (s, { Success := false, Error := "", Value := none }) ∧
    (∀ (enc : String → String → Option Json) (keysOf : Store → List String) (l : Loop),
      l.stopped = false →
      Loop.step enc keysOf l (Event.request (some { Op := op, Key := k, Value := vh })) =
        some { l with
          replies := l.replies ++
            [({ Op := op, Key := k, Value := vh },
              { Success := false, Error := "", Value := none })] }) := by
  have hh : handleRequest s { Op := op, Key := k, Value := vh } =
      some (s, { Success := false, Error := "", Value := none }) := by
    simp [handleRequest, h1, h2, h3]
  refine ⟨hh, ?_⟩
  intro enc keysOf l hl
  simp [Loop.step, hl, handleRequest, h1, h2, h3]

/-- Witness of C23 amended: Op = 0 on the empty store. -/
theorem unmatched_op_store_unchanged_witness :
    ((0 : Op) ≠ READ ∧ (0 : Op) ≠ WRITE ∧ (0 : Op) ≠ DELETE) ∧
    handleRequest NewEmptyStore { Op := 0, Key := "a", Value := none } =
      some (NewEmptyStore, { Success := false, Error := "", Value := none }) :=
  ⟨by decide,
    (unmatched_op_store_unchanged NewEmptyStore 0 "a" none (by decide) (by decide)
      (by decide)).1⟩

/-- C24 as stated fails: when decoding fails with the error "EOF" and leaves
the target at its zero value, the stream client and the datagram client each
deliver a Response on the request's reply channel, and the datagram server
writes a Response packet back to the sender; all three carry Error = "EOF". -/
theorem undecodable_message_is_answered :
    TCPClient.reply ({ Success := false, Error := "", Value := none }, some "EOF") =
      [{ Success := false, Error := "EOF", Value := none }] ∧
    UDPClient.reply ({ Success := false, Error := "", Value := none }, some "EOF") =
      [{ Success := false, Error := "EOF", Value := none }] ∧
    UDPServer.onPacket NewEmptyStore none ({ Op := 0, Key := "", Value := none }, some "EOF") =
      some (NewEmptyStore, [{ Success := false, Error := "EOF", Value := none }]) :=
  ⟨rfl, rfl, rfl⟩

/-- C24, amended: an exchange whose wire message fails to decode is answered
with an error Response. When decoding the reply fails with the message `msg`,
the stream client and the datagram client each deliver exactly one Response on
the request's reply channel: what decoding left in the Response, with Error
set to `msg` unless an Error was already there. When the datagram server fails
to decode an inbound packet it writes exactly one Response packet back, with
Success = false, Error = `msg` and no Value, and the store is left as it is:
nothing reaches the dispatcher. -/
theorem decode_failure_is_answered (partly : Response) (msg : String) :
    TCPClient.reply (partly, some msg) =
      [if partly.Error = "" then { partly with Error := msg } else partly] ∧
    UDPClient.reply (partly, some msg) =
      [if partly.Error = "" then { partly with Error := msg } else partly] ∧
    (partly.Error = "" →
      TCPClient.reply (partly, some msg) = [{ partly with Error := msg }] ∧
      UDPClient.reply (partly, some msg) = [{ partly with Error := msg }]) ∧
    (∀ (store : Store) (request : Request),
      UDPServer.onPacket store none (request, some msg) =
        some (store, [{ Success := false, Error := msg, Value := none }])) := by
  refine ⟨rfl, rfl, ?_, fun _ _ => rfl⟩
  intro h
  simp [TCPClient.reply, UDPClient.reply, h]

/-- Witness of C24 amended: decoding fails with "EOF" on an untouched
Response. -/
theorem decode_failure_is_answered_witness :
    ({ Success := false, Error := "", Value := none } : Response).Error = "" ∧
    TCPClient.reply ({ Success := false, Error := "", Value := none }, some "EOF") =
      [{ Success := false, Error := "EOF", Value := none }] :=
  ⟨rfl, ((decode_failure_is_answered { Success := false, Error := "", Value := none }
    "EOF").2.2.1 rfl).1⟩

/-- C25, at the failing input: for `PUT /a` the key "a" is not empty and no
branch of the handler assigns `request`, so the value sent on the request
channel is a nil request; the handler then faults on `request.ResponseChannel`
and the control loop faults on `request.Op`. -/
theorem put_sends_nil_request :
    pathKey "/a" ≠ "" ∧
    routeRequest (fun _ => none) { Method := "PUT", Path := "/a", Body := [] } =
      some (Routed.sent none) ∧
    operationHandler (fun _ => none) (fun _ => Except.ok "") NewEmptyStore
      { Method := "PUT", Path := "/a", Body := [] } = none ∧
    Loop.step (fun _ _ => none) (fun _ => []) (Service.Start (NewService "") Disk.blank)
      (Event.request none) = none :=
  ⟨by decide, rfl, rfl, rfl⟩

end Keystore
